import Mathlib

/-!
Verification of the `python-marshal` crate (reader/writer/optimizer/resolver for
CPython marshal data) against its natural-language specification.

The Rust sources are embedded shallowly:
* machine integers become `Nat`/`Int` with explicit `% 2 ^ w` where wrapping matters;
* bytes are `Nat` values; reading a byte reduces it `% 256` (the Rust side reads `u8`);
* `f64` payloads are carried as their 64-bit little-endian bit patterns (`Nat`);
  the crate never inspects a float beyond moving its bytes, except for the
  decimal-text float form, whose parsing/printing is delegated to the Rust
  standard library and is abstracted here (no claim depends on it);
* fallible Rust code returns `Res`, which distinguishes structured `Err` values
  from panics (`panic!`, `todo!`, slice/`Vec` index out of bounds, `unwrap`);
* recursion that Rust bounds only by the call stack gets an explicit fuel
  argument; exhausted fuel is reported as `Res.fuelOut`, an embedding artifact
  that is unreachable for the concrete inputs and bounds used in the theorems.

The crate's `walker` module (the `Transformable`/`Transformer` traversal used by
`resolver.rs`) is not part of the source snapshot; its traversal order is
modelled from the spec where noted.
-/

namespace PyMarshal

/-- Error taxonomy of `error.rs` (`enum Error`).  Payloads that are only used
for diagnostics (io errors, offending objects) are dropped or reduced to the
discriminating data. -/
inductive Err : Type
  | unsupportedPyVersion
  | noMagicNumber
  | noTimeStamp
  | noHash
  | unsupportedMagicNumber (magic : Nat)
  | digitOutOfRange (digit : Nat)
  | unnormalizedLong
  | nullInTuple
  | nullInList
  | nullInSet
  | nullInDict
  | unreadableKind
  | invalidConversion
  | invalidKind
  | invalidObject
  | invalidData
  | invalidString
  | invalidUtf16String
  | invalidReference
  | invalidReferenceAt (index : Nat)
  | invalidStoreRef
  | unexpectedObject
  | unexpectedNull
  | depthLimitExceeded
  deriving DecidableEq, Repr

/-- Outcome of running a fallible piece of the crate: a value, a structured
`Err` (Rust `Result::Err`), a panic (`panic!`, `todo!`, out-of-bounds indexing,
`unwrap` on `None`), or exhausted embedding fuel (an artifact of modelling
unbounded recursion; never reachable under the fuel bounds used below). -/
inductive Res (α : Type) : Type
  | ok (a : α)
  | err (e : Err)
  | panicked
  | fuelOut
  deriving DecidableEq, Repr

/-- Monadic bind for `Res`, mirroring Rust's `?` operator. -/
def Res.bind {α β : Type} : Res α → (α → Res β) → Res β
  | .ok a, f => f a
  | .err e, _ => .err e
  | .panicked, _ => .panicked
  | .fuelOut, _ => .fuelOut

instance : Monad Res where
  pure := Res.ok
  bind := Res.bind

@[simp] theorem Res.bind_ok {α β : Type} (a : α) (f : α → Res β) :
    (Res.ok a >>= f) = f a := rfl

@[simp] theorem Res.bind_err {α β : Type} (e : Err) (f : α → Res β) :
    ((Res.err e : Res α) >>= f) = .err e := rfl

@[simp] theorem Res.bind_panicked {α β : Type} (f : α → Res β) :
    ((Res.panicked : Res α) >>= f) = .panicked := rfl

@[simp] theorem Res.bind_fuelOut {α β : Type} (f : α → Res β) :
    ((Res.fuelOut : Res α) >>= f) = .fuelOut := rfl

@[simp] theorem Res.pure_eq_ok {α : Type} (a : α) : (pure a : Res α) = .ok a := rfl

/-- Kind tags of `lib.rs` (`enum Kind`), one per wire tag byte. -/
inductive Kind : Type
  | nullKind
  | noneKind
  | falseKind
  | trueKind
  | stopIteration
  | ellipsis
  | int
  | int64
  | float
  | binaryFloat
  | complex
  | binaryComplex
  | long
  | string
  | interned
  | ref
  | tuple
  | list
  | dict
  | code
  | unicode
  | unknown
  | set
  | frozenset
  | ascii
  | asciiInterned
  | smallTuple
  | shortAscii
  | shortAsciiInterned
  | flagRef
  deriving DecidableEq, Repr

/-- Discriminant values of `enum Kind` (the `#[repr(u8)]` byte of each tag). -/
def Kind.toByte : Kind → Nat
  | .nullKind => 48            -- b'0'
  | .noneKind => 78            -- b'N'
  | .falseKind => 70           -- b'F'
  | .trueKind => 84            -- b'T'
  | .stopIteration => 83       -- b'S'
  | .ellipsis => 46            -- b'.'
  | .int => 105                -- b'i'
  | .int64 => 73               -- b'I'
  | .float => 102              -- b'f'
  | .binaryFloat => 103        -- b'g'
  | .complex => 120            -- b'x'
  | .binaryComplex => 121      -- b'y'
  | .long => 108               -- b'l'
  | .string => 115             -- b's'
  | .interned => 116           -- b't'
  | .ref => 114                -- b'r'
  | .tuple => 40               -- b'('
  | .list => 91                -- b'['
  | .dict => 123               -- b'\x7b'
  | .code => 99                -- b'c'
  | .unicode => 117            -- b'u'
  | .unknown => 63             -- b'?'
  | .set => 60                 -- b'<'
  | .frozenset => 62           -- b'>'
  | .ascii => 97               -- b'a'
  | .asciiInterned => 65       -- b'A'
  | .smallTuple => 41          -- b')'
  | .shortAscii => 122         -- b'z'
  | .shortAsciiInterned => 90  -- b'Z'
  | .flagRef => 128            -- 0x80

/-- `Kind::from_u8` (derived `FromPrimitive`): inverse lookup of the
discriminant table. -/
def Kind.fromByte (b : Nat) : Option Kind :=
  if b = 48 then some .nullKind
  else if b = 78 then some .noneKind
  else if b = 70 then some .falseKind
  else if b = 84 then some .trueKind
  else if b = 83 then some .stopIteration
  else if b = 46 then some .ellipsis
  else if b = 105 then some .int
  else if b = 73 then some .int64
  else if b = 102 then some .float
  else if b = 103 then some .binaryFloat
  else if b = 120 then some .complex
  else if b = 121 then some .binaryComplex
  else if b = 108 then some .long
  else if b = 115 then some .string
  else if b = 116 then some .interned
  else if b = 114 then some .ref
  else if b = 40 then some .tuple
  else if b = 91 then some .list
  else if b = 123 then some .dict
  else if b = 99 then some .code
  else if b = 117 then some .unicode
  else if b = 63 then some .unknown
  else if b = 60 then some .set
  else if b = 62 then some .frozenset
  else if b = 97 then some .ascii
  else if b = 65 then some .asciiInterned
  else if b = 41 then some .smallTuple
  else if b = 122 then some .shortAscii
  else if b = 90 then some .shortAsciiInterned
  else if b = 128 then some .flagRef
  else none

/-- `magic.rs` `struct PyVersion` (the `patch` byte is carried but unused). -/
structure PyVersion : Type where
  major : Nat
  minor : Nat
  patch : Nat
  deriving DecidableEq, Repr

/-- `PyVersion::new` (patch 0). -/
def PyVersion.new (major minor : Nat) : PyVersion := ⟨major, minor, 0⟩

/-- Derived lexicographic `Ord` on `(major, minor, patch)`, as the field order
of the Rust struct gives. -/
def PyVersion.le (a b : PyVersion) : Bool :=
  a.major < b.major ∨ (a.major = b.major ∧
    (a.minor < b.minor ∨ (a.minor = b.minor ∧ a.patch ≤ b.patch)))

/-- Comparison against a `(major, minor)` pair (`PartialOrd<(u8, u8)>` compares
with patch 0). `a.gePair (x, y)` is Rust's `a >= (x, y)`. -/
def PyVersion.gePair (a : PyVersion) (major minor : Nat) : Bool :=
  PyVersion.le (PyVersion.new major minor) a

/-- `PyVersion::MAGIC_NUMBERS`: the static magic-number table of `magic.rs`. -/
def magicNumbers : List (Nat × PyVersion) :=
  [ (0x0A0D0C3B, ⟨3, 0, 0⟩)
  , (0x0A0D0C4F, ⟨3, 1, 0⟩)
  , (0x0A0D0C6C, ⟨3, 2, 0⟩)
  , (0x0A0D0C9E, ⟨3, 3, 0⟩)
  , (0x0A0D0CEE, ⟨3, 4, 0⟩)
  , (0x0A0D0D16, ⟨3, 5, 0⟩)
  , (0x0A0D0D33, ⟨3, 6, 0⟩)
  , (0x0A0D0D42, ⟨3, 7, 0⟩)
  , (0x0A0D0D55, ⟨3, 8, 0⟩)
  , (0x0A0D0D61, ⟨3, 9, 0⟩)
  , (0x0A0D0D6F, ⟨3, 10, 0⟩)
  , (0x0A0D0DA7, ⟨3, 11, 0⟩)
  , (0x0A0D0DCB, ⟨3, 12, 0⟩)
  , (0x0A0D0DF3, ⟨3, 13, 0⟩) ]

/-- `PyVersion::from_magic`. -/
def PyVersion.fromMagic (magic : Nat) : Res PyVersion :=
  match (magicNumbers.find? (fun p => p.1 = magic)) with
  | some p => .ok p.2
  | none => .err (.unsupportedMagicNumber magic)

/-- `PyVersion::to_magic`. -/
def PyVersion.toMagic (v : PyVersion) : Res Nat :=
  match (magicNumbers.find? (fun p => p.2 = v)) with
  | some p => .ok p.1
  | none => .err .unsupportedPyVersion

/-- `struct PyString`: payload bytes (`BString`) plus the recorded string kind,
which drives the tag chosen on re-encode. -/
structure PyString : Type where
  value : List Nat
  kind : Kind
  deriving DecidableEq, Repr

/-- `enum ObjectHashable` of `lib.rs`.  `OrderedFloat` payloads are carried as
64-bit patterns; `HashableHashSet`/tuple payloads as lists in insertion
order. -/
inductive HObj : Type
  | none
  | stopIteration
  | ellipsis
  | bool (b : Bool)
  | long (n : Int)
  | float (bits : Nat)
  | complex (re im : Nat)
  | bytes (bs : List Nat)
  | string (s : PyString)
  | tuple (xs : List HObj)
  | frozenset (xs : List HObj)
  | loadRef (i : Nat)
  | storeRef (i : Nat)
  deriving Repr

/-- `enum Object` of `lib.rs`, with the `Code` payloads (`code_objects.rs`
`Code310`/`Code311` behind `enum Code`) flattened into the two code
constructors.  `code311` carries the minor version (11, 12 or 13) that
distinguishes `Code::V311`/`V312`/`V313`; the three share one field layout.
Dicts are insertion-ordered key/value lists (`IndexMap`), sets insertion-ordered
element lists (`IndexSet`). -/
inductive Obj : Type
  | none
  | stopIteration
  | ellipsis
  | bool (b : Bool)
  | long (n : Int)
  | float (bits : Nat)
  | complex (re im : Nat)
  | bytes (bs : List Nat)
  | string (s : PyString)
  | tuple (xs : List Obj)
  | list (xs : List Obj)
  | dict (entries : List (HObj × Obj))
  | set (xs : List HObj)
  | frozenset (xs : List HObj)
  | code310 (argcount posonlyargcount kwonlyargcount nlocals stacksize flags : Nat)
      (code consts names varnames freevars cellvars filename name : Obj)
      (firstlineno : Nat) (lnotab : Obj)
  | code311 (ver : Nat)
      (argcount posonlyargcount kwonlyargcount stacksize flags : Nat)
      (code consts names localsplusnames localspluskinds filename name qualname : Obj)
      (firstlineno : Nat) (linetable exceptiontable : Obj)
  | loadRef (i : Nat)
  | storeRef (i : Nat)
  deriving Repr

mutual

/-- Structural equality of `ObjectHashable` values (Rust derived `Eq`). -/
def HObj.beq : HObj → HObj → Bool
  | .none, .none => true
  | .stopIteration, .stopIteration => true
  | .ellipsis, .ellipsis => true
  | .bool a, .bool b => a = b
  | .long a, .long b => a = b
  | .float a, .float b => a = b
  | .complex ar ai, .complex br bi => ar = br ∧ ai = bi
  | .bytes a, .bytes b => a = b
  | .string a, .string b => a = b
  | .tuple xs, .tuple ys => HObj.beqList xs ys
  | .frozenset xs, .frozenset ys => HObj.beqList xs ys
  | .loadRef a, .loadRef b => a = b
  | .storeRef a, .storeRef b => a = b
  | _, _ => false

/-- Elementwise equality of hashable-value lists. -/
def HObj.beqList : List HObj → List HObj → Bool
  | [], [] => true
  | x :: xs, y :: ys => HObj.beq x y && HObj.beqList xs ys
  | _, _ => false

end

mutual

/-- `impl From<ObjectHashable> for Object` (total direction). -/
def HObj.toObj : HObj → Obj
  | .none => .none
  | .stopIteration => .stopIteration
  | .ellipsis => .ellipsis
  | .bool b => .bool b
  | .long n => .long n
  | .float bits => .float bits
  | .complex re im => .complex re im
  | .bytes bs => .bytes bs
  | .string s => .string s
  | .tuple xs => .tuple (HObj.toObjList xs)
  | .frozenset xs => .frozenset xs
  | .loadRef i => .loadRef i
  | .storeRef i => .storeRef i

/-- Conversion of a tuple payload, element by element. -/
def HObj.toObjList : List HObj → List Obj
  | [] => []
  | x :: xs => HObj.toObj x :: HObj.toObjList xs

end

mutual

/-- `impl TryFrom<Object> for ObjectHashable`.  Tuple children go through
`ObjectHashable::try_from(..).unwrap()`, so an unhashable child is a panic,
not a propagated error. -/
def Obj.tryHashable : Obj → Res HObj
  | .none => .ok .none
  | .stopIteration => .ok .stopIteration
  | .ellipsis => .ok .ellipsis
  | .bool b => .ok (.bool b)
  | .long n => .ok (.long n)
  | .float bits => .ok (.float bits)
  | .complex re im => .ok (.complex re im)
  | .bytes bs => .ok (.bytes bs)
  | .string s => .ok (.string s)
  | .tuple xs =>
      match Obj.tryHashableList xs with
      | .ok ys => .ok (.tuple ys)
      | .err _ => .panicked
      | .panicked => .panicked
      | .fuelOut => .fuelOut
  | .frozenset xs => .ok (.frozenset xs)
  | _ => .err .invalidObject

/-- Tuple children of `try_from`, with `unwrap` on each child. -/
def Obj.tryHashableList : List Obj → Res (List HObj)
  | [] => .ok []
  | x :: xs =>
      match Obj.tryHashable x with
      | .ok y =>
          match Obj.tryHashableList xs with
          | .ok ys => .ok (y :: ys)
          | .err _ => .panicked
          | .panicked => .panicked
          | .fuelOut => .fuelOut
      | .err _ => .panicked
      | .panicked => .panicked
      | .fuelOut => .fuelOut

end

mutual

/-- `ObjectHashable::from_ref`: resolve references (recursively validating the
referenced value is hashable) and keep the placeholder; convert anything else
with `try_from`.  Tuple children go through `from_ref(..).unwrap()` (panic on
error).  Rust recursion here is bounded only by the call stack (a cyclic
chain diverges); the embedding's fuel decreases structurally on every call. -/
def Obj.fromRef : (fuel : Nat) → Obj → (refs : List Obj) → Res HObj
  | 0, _, _ => .fuelOut
  | f + 1, obj, refs =>
    match obj with
    | .loadRef i =>
        match refs.get? i with
        | Option.none => .err .invalidReference
        | Option.some r =>
            match Obj.fromRef f r refs with
            | .ok _ => .ok (.loadRef i)
            | .err e => .err e
            | .panicked => .panicked
            | .fuelOut => .fuelOut
    | .storeRef i =>
        match refs.get? i with
        | Option.none => .err .invalidReference
        | Option.some r =>
            match Obj.fromRef f r refs with
            | .ok _ => .ok (.storeRef i)
            | .err e => .err e
            | .panicked => .panicked
            | .fuelOut => .fuelOut
    | .tuple t =>
        match Obj.fromRefList f t refs with
        | .ok ys => .ok (.tuple ys)
        | .err _ => .panicked
        | .panicked => .panicked
        | .fuelOut => .fuelOut
    | x => x.tryHashable

/-- Tuple children of `from_ref`, each via `from_ref(..).unwrap()`. -/
def Obj.fromRefList : (fuel : Nat) → List Obj → (refs : List Obj) → Res (List HObj)
  | 0, _, _ => .fuelOut
  | f + 1, xs, refs =>
    match xs with
    | [] => .ok []
    | x :: rest =>
        match Obj.fromRef f x refs with
        | .ok y =>
            match Obj.fromRefList f rest refs with
            | .ok ys => .ok (y :: ys)
            | .err _ => .panicked
            | .panicked => .panicked
            | .fuelOut => .fuelOut
        | .err _ => .panicked
        | .panicked => .panicked
        | .fuelOut => .fuelOut

end

/-- `IndexSet::insert` chain used when collecting decoded set elements:
an element equal to an existing one is dropped, otherwise it is appended. -/
def hsetInsert (xs : List HObj) (x : HObj) : List HObj :=
  if xs.any (fun y => y.beq x) then xs else xs ++ [x]

/-- Building an `IndexSet` from decoded elements in order. -/
def hsetOfList (xs : List HObj) : List HObj :=
  xs.foldl hsetInsert []

/-- `IndexMap::insert`: an existing key keeps its position (and key instance)
and has its value replaced; a new key is appended. -/
def dictInsert (m : List (HObj × Obj)) (k : HObj) (v : Obj) : List (HObj × Obj) :=
  if m.any (fun e => e.1.beq k) then
    m.map (fun e => if e.1.beq k then (e.1, v) else e)
  else m ++ [(k, v)]

/-! ### Reader primitives (`reader.rs`, cursor helpers) -/

/-- Little-endian value of a byte list. -/
def leNat : List Nat → Nat
  | [] => 0
  | b :: rest => b + 256 * leNat rest

/-- Two's-complement reading of a `w`-bit little-endian value. -/
def toSigned (w : Nat) (n : Nat) : Int :=
  if n < 2 ^ (w - 1) then (n : Int) else (n : Int) - 2 ^ w

/-- Rust `as usize` on a signed value (64-bit targets): wrap modulo `2^64`. -/
def usizeOfInt (v : Int) : Nat := (v % (2 ^ 64 : Int)).toNat

/-- Rust `as u32` on a signed value: wrap modulo `2^32`. -/
def u32OfInt (v : Int) : Nat := (v % (2 ^ 32 : Int)).toNat

/-- `i32::wrapping_abs`: absolute value except at `i32::MIN`, which stays. -/
def wrappingAbsI32 (n : Int) : Int :=
  if n = -(2 ^ 31 : Int) then n else (n.natAbs : Int)

/-- `u32::try_from(i32)`: fails exactly on negative input. -/
def toU32Checked (v : Int) : Res Nat :=
  if v < 0 then .err .invalidConversion else .ok v.toNat

/-- `r_u8`: one byte off the cursor (EOF is an io error, `Error::InvalidData`). -/
def rU8 : List Nat → Res (Nat × List Nat)
  | [] => .err .invalidData
  | b :: rest => .ok (b % 256, rest)

/-- `r_bytes`: `length` bytes off the cursor. -/
def rBytesN : Nat → List Nat → Res (List Nat × List Nat)
  | 0, input => .ok ([], input)
  | _ + 1, [] => .err .invalidData
  | n + 1, b :: rest =>
      match rBytesN n rest with
      | .ok (bs, r2) => .ok (b % 256 :: bs, r2)
      | .err e => .err e
      | .panicked => .panicked
      | .fuelOut => .fuelOut

/-- `r_u16`: two bytes, little endian. -/
def rU16 (input : List Nat) : Res (Nat × List Nat) := do
  let (bs, rest) ← rBytesN 2 input
  .ok (leNat bs, rest)

/-- `r_long`: four bytes, little-endian `i32`. -/
def rLong (input : List Nat) : Res (Int × List Nat) := do
  let (bs, rest) ← rBytesN 4 input
  .ok (toSigned 32 (leNat bs), rest)

/-- `r_long64`: eight bytes, little-endian `i64`. -/
def rLong64 (input : List Nat) : Res (Int × List Nat) := do
  let (bs, rest) ← rBytesN 8 input
  .ok (toSigned 64 (leNat bs), rest)

/-- `r_float_bin`: eight bytes, the `f64` carried as its bit pattern. -/
def rFloatBin (input : List Nat) : Res (Nat × List Nat) := do
  let (bs, rest) ← rBytesN 8 input
  .ok (leNat bs, rest)

/-- Decimal-text `f64` parsing (`str::parse::<f64>` of the Rust standard
library).  This is external library behaviour, abstracted: the embedding
treats every text form as unparseable.  No claim below exercises the
text-float path, and the round-trip theorem requires `marshal_version > 1`,
under which the writer never emits it. -/
def parseF64Text (_s : List Nat) : Option Nat := Option.none

/-- `r_float_str`: one length byte, then the decimal text. -/
def rFloatStr (input : List Nat) : Res (Nat × List Nat) := do
  let (n, input) ← rU8 input
  let (s, input) ← rBytesN n input
  match parseF64Text s with
  | Option.some bits => .ok (bits, input)
  | Option.none => .err .invalidString

/-- The digit loop of the `Kind::Long` branch: `size` 15-bit digits, each read
as a `u16`; a digit strictly above `1 << 15` is `Error::DigitOutOfRange`. -/
def rLongDigits : Nat → Nat → Nat → List Nat → Res (Nat × List Nat)
  | 0, _, value, input => .ok (value, input)
  | size + 1, i, value, input =>
      match rU16 input with
      | .ok (digit, input) =>
          if 32768 < digit then .err (.digitOutOfRange digit)
          else rLongDigits size (i + 1) (Nat.lor value (digit <<< (i * 15))) input
      | .err e => .err e
      | .panicked => .panicked
      | .fuelOut => .fuelOut

/-- `set_reference`: direct `Vec` index assignment, a panic when out of
bounds. -/
def setReference (refs : List Obj) (i : Nat) (v : Obj) : Res (List Obj) :=
  if i < refs.length then .ok (refs.set i v) else .panicked

/-- The kinds whose ref-flag handling reserves a table slot before the payload
is decoded. -/
def Kind.reservesSlot : Kind → Bool
  | .smallTuple => true
  | .tuple => true
  | .list => true
  | .dict => true
  | .set => true
  | .frozenset => true
  | .code => true
  | _ => false

/-! ### Code-object field validation (`code_objects.rs`) -/

/-- `resolve_object_ref!` on a `Some` argument: a placeholder resolves through
the table (missing slot is `Error::InvalidReference`), anything else passes
through. -/
def resolveObjectRef (obj : Obj) (refs : List Obj) : Res Obj :=
  match obj with
  | .loadRef i =>
      match refs.get? i with
      | Option.some r => .ok r
      | Option.none => .err .invalidReference
  | .storeRef i =>
      match refs.get? i with
      | Option.some r => .ok r
      | Option.none => .err .invalidReference
  | x => .ok x

/-- `extract_object!(.., Object::Bytes ..)` after resolution. -/
def expectBytesField (obj : Obj) (refs : List Obj) : Res Unit := do
  let r ← resolveObjectRef obj refs
  match r with
  | .bytes _ => .ok ()
  | _ => .err .invalidObject

/-- `extract_object!(.., Object::String ..)` after resolution. -/
def expectStringField (obj : Obj) (refs : List Obj) : Res Unit := do
  let r ← resolveObjectRef obj refs
  match r with
  | .string _ => .ok ()
  | _ => .err .invalidObject

/-- `extract_strings_tuple!` elements: each resolved and required to be a
string. -/
def stringsElemsCheck (xs : List Obj) (refs : List Obj) : Res Unit :=
  match xs with
  | [] => .ok ()
  | x :: rest => do
      let r ← resolveObjectRef x refs
      match r with
      | .string _ => stringsElemsCheck rest refs
      | _ => .err .unexpectedObject

/-- `extract_strings_tuple!` applied to a resolved tuple field. -/
def expectStringsTupleField (obj : Obj) (refs : List Obj) : Res Unit := do
  let r ← resolveObjectRef obj refs
  match r with
  | .tuple xs => stringsElemsCheck xs refs
  | _ => .err .invalidObject

/-- `extract_object!(.., Object::Tuple ..)` after resolution (the `consts`
field). -/
def expectTupleField (obj : Obj) (refs : List Obj) : Res Unit := do
  let r ← resolveObjectRef obj refs
  match r with
  | .tuple _ => .ok ()
  | _ => .err .invalidObject

/-- The field validations run by `Code310::new`. -/
def code310Check (code consts names varnames freevars cellvars filename name lnotab : Obj)
    (refs : List Obj) : Res Unit := do
  expectBytesField code refs
  expectTupleField consts refs
  expectStringsTupleField names refs
  expectStringsTupleField varnames refs
  expectStringsTupleField freevars refs
  expectStringsTupleField cellvars refs
  expectStringField filename refs
  expectStringField name refs
  expectBytesField lnotab refs

/-- The field validations run by `Code311::new`. -/
def code311Check (code consts names localsplusnames localspluskinds filename name qualname
    linetable exceptiontable : Obj) (refs : List Obj) : Res Unit := do
  expectBytesField code refs
  expectTupleField consts refs
  expectStringsTupleField names refs
  expectStringsTupleField localsplusnames refs
  expectBytesField localspluskinds refs
  expectStringField filename refs
  expectStringField name refs
  expectStringField qualname refs
  expectBytesField linetable refs
  expectBytesField exceptiontable refs

/-- Set/frozenset element conversion: `ObjectHashable::from_ref` with any
error replaced by `Error::UnexpectedObject`. -/
def hconvertElems : (fuel : Nat) → List Obj → (refs : List Obj) → Res (List HObj)
  | 0, _, _ => .fuelOut
  | f + 1, xs, refs =>
    match xs with
    | [] => .ok []
    | x :: rest =>
        match Obj.fromRef f x refs with
        | .ok h =>
            match hconvertElems f rest refs with
            | .ok hs => .ok (h :: hs)
            | .err e => .err e
            | .panicked => .panicked
            | .fuelOut => .fuelOut
        | .err _ => .err .unexpectedObject
        | .panicked => .panicked
        | .fuelOut => .fuelOut

/-- The bookkeeping after the kind dispatch of `r_object`: values of the
skip kinds (`None`-the-object, stop marker, ellipsis, booleans and
back-references, or a null result) are not stored; otherwise, with the ref
flag set, the reserved slot is overwritten (or the value freshly appended),
and a flagged decode returns a store placeholder for the slot. -/
def rFinish (flag : Bool) (obj : Option Obj) (idx : Option Nat) (refs : List Obj) :
    Res (Option Obj × List Obj) :=
  let skip : Bool :=
    match obj with
    | Option.none => true
    | Option.some Obj.none => true
    | Option.some Obj.stopIteration => true
    | Option.some Obj.ellipsis => true
    | Option.some (Obj.bool _) => true
    | Option.some (Obj.loadRef _) => true
    | _ => false
  let next : Res (Option Nat × List Obj) :=
    if skip then .ok (idx, refs)
    else
      match obj, idx, flag with
      | Option.some x, Option.some i, true =>
          match setReference refs i x with
          | .ok refs2 => .ok (Option.some i, refs2)
          | .err e => .err e
          | .panicked => .panicked
          | .fuelOut => .fuelOut
      | Option.some x, Option.none, true =>
          .ok (Option.some refs.length, refs ++ [x])
      | _, _, _ => .ok (idx, refs)
  match next with
  | .ok (idx2, refs2) =>
      if flag then
        match idx2 with
        | Option.some i => .ok (Option.some (Obj.storeRef i), refs2)
        | Option.none => .err .invalidReference
      else .ok (obj, refs2)
  | .err e => .err e
  | .panicked => .panicked
  | .fuelOut => .fuelOut

mutual

/-- `PyReader::r_object`: read one tag byte, strip the ref flag, reserve a
table slot for flagged container kinds, dispatch on the kind, then run the
flag bookkeeping (`rFinish`).  The result is the optional object (a `Null`
tag yields `none`), the remaining input and the updated reference table.
Fuel bounds the recursion depth (Rust bounds it only by the call stack). -/
def rObject (fuel : Nat) (v : PyVersion) (input : List Nat) (refs : List Obj) :
    Res (Option Obj × List Nat × List Obj) :=
  match fuel with
  | 0 => .fuelOut
  | f + 1 => do
    let (code, input) ← rU8 input
    let flag : Bool := Nat.land code 128 != 0
    match Kind.fromByte (Nat.land code 127) with
    | Option.none => .err .unreadableKind
    | Option.some objKind =>
      let resIdx : List Obj × Option Nat :=
        if objKind.reservesSlot ∧ flag then (refs ++ [Obj.none], Option.some refs.length)
        else (refs, Option.none)
      let refs := resIdx.1
      let idx := resIdx.2
      let stepped : Res (Option Obj × List Nat × List Obj × Option Nat) :=
        match objKind with
        | .nullKind => .ok (Option.none, input, refs, idx)
        | .noneKind => .ok (Option.some Obj.none, input, refs, idx)
        | .ellipsis => .ok (Option.some Obj.ellipsis, input, refs, idx)
        | .falseKind => .ok (Option.some (Obj.bool false), input, refs, idx)
        | .trueKind => .ok (Option.some (Obj.bool true), input, refs, idx)
        | .int => do
            let (value, input) ← rLong input
            .ok (Option.some (Obj.long value), input, refs, idx)
        | .int64 => do
            let (value, input) ← rLong64 input
            .ok (Option.some (Obj.long value), input, refs, idx)
        | .long => do
            let (n, input) ← rLong input
            let size := usizeOfInt (wrappingAbsI32 n)
            let (value, input) ← rLongDigits size 0 0 input
            let signed : Int := if n < 0 then -(value : Int) else (value : Int)
            .ok (Option.some (Obj.long signed), input, refs, idx)
        | .float => do
            let (bits, input) ← rFloatStr input
            .ok (Option.some (Obj.float bits), input, refs, idx)
        | .binaryFloat => do
            let (bits, input) ← rFloatBin input
            .ok (Option.some (Obj.float bits), input, refs, idx)
        | .complex => do
            let (re, input) ← rFloatStr input
            let (im, input) ← rFloatStr input
            .ok (Option.some (Obj.complex re im), input, refs, idx)
        | .binaryComplex => do
            let (re, input) ← rFloatBin input
            let (im, input) ← rFloatBin input
            .ok (Option.some (Obj.complex re im), input, refs, idx)
        | .string => do
            let (length, input) ← rLong input
            let (bs, input) ← rBytesN (usizeOfInt length) input
            .ok (Option.some (Obj.bytes bs), input, refs, idx)
        | .asciiInterned => do
            let (length, input) ← rLong input
            let (bs, input) ← rBytesN (usizeOfInt length) input
            .ok (Option.some (Obj.string ⟨bs, objKind⟩), input, refs, idx)
        | .ascii => do
            let (length, input) ← rLong input
            let (bs, input) ← rBytesN (usizeOfInt length) input
            .ok (Option.some (Obj.string ⟨bs, objKind⟩), input, refs, idx)
        | .interned => do
            let (length, input) ← rLong input
            let (bs, input) ← rBytesN (usizeOfInt length) input
            .ok (Option.some (Obj.string ⟨bs, objKind⟩), input, refs, idx)
        | .unicode => do
            let (length, input) ← rLong input
            let (bs, input) ← rBytesN (usizeOfInt length) input
            .ok (Option.some (Obj.string ⟨bs, objKind⟩), input, refs, idx)
        | .shortAsciiInterned => do
            let (length, input) ← rU8 input
            let (bs, input) ← rBytesN length input
            .ok (Option.some (Obj.string ⟨bs, objKind⟩), input, refs, idx)
        | .shortAscii => do
            let (length, input) ← rU8 input
            let (bs, input) ← rBytesN length input
            .ok (Option.some (Obj.string ⟨bs, objKind⟩), input, refs, idx)
        | .tuple => do
            let (length, input) ← rLong input
            let (xs, input, refs) ← rVec f v (usizeOfInt length) Kind.tuple input refs
            .ok (Option.some (Obj.tuple xs), input, refs, idx)
        | .smallTuple => do
            let (length, input) ← rU8 input
            let (xs, input, refs) ← rVec f v length Kind.tuple input refs
            .ok (Option.some (Obj.tuple xs), input, refs, idx)
        | .list => do
            let (length, input) ← rLong input
            let (xs, input, refs) ← rVec f v (usizeOfInt length) Kind.list input refs
            .ok (Option.some (Obj.list xs), input, refs, idx)
        | .dict => do
            let (entries, input, refs) ← rHashmap f v input refs []
            .ok (Option.some (Obj.dict entries), input, refs, idx)
        | .set => do
            let (length, input) ← rLong input
            let (xs, input, refs) ← rVec f v (usizeOfInt length) Kind.set input refs
            let hs ← hconvertElems f xs refs
            let value := Obj.set (hsetOfList hs)
            if flag then do
              let idx2 := Option.some refs.length
              let refs ← setReference refs refs.length value
              .ok (Option.some value, input, refs, idx2)
            else
              .ok (Option.some value, input, refs, idx)
        | .frozenset => do
            let (length, input) ← rLong input
            let (xs, input, refs) ← rVec f v (usizeOfInt length) Kind.frozenset input refs
            let hs ← hconvertElems f xs refs
            .ok (Option.some (Obj.frozenset (hsetOfList hs)), input, refs, idx)
        | .code =>
            if v.major == 3 && v.minor == 10 then do
              let (argcount, input) ← rLong input
              let (posonlyargcount, input) ← rLong input
              let (kwonlyargcount, input) ← rLong input
              let (nlocals, input) ← rLong input
              let (stacksize, input) ← rLong input
              let (flagsRaw, input) ← rLong input
              let (codeF, input, refs) ← rObjectSome f v input refs
              let (consts, input, refs) ← rObjectSome f v input refs
              let (names, input, refs) ← rObjectSome f v input refs
              let (varnames, input, refs) ← rObjectSome f v input refs
              let (freevars, input, refs) ← rObjectSome f v input refs
              let (cellvars, input, refs) ← rObjectSome f v input refs
              let (filename, input, refs) ← rObjectSome f v input refs
              let (name, input, refs) ← rObjectSome f v input refs
              let (firstlineno, input) ← rLong input
              let (lnotab, input, refs) ← rObjectSome f v input refs
              let argcountU ← toU32Checked argcount
              let posonlyU ← toU32Checked posonlyargcount
              let kwonlyU ← toU32Checked kwonlyargcount
              let nlocalsU ← toU32Checked nlocals
              let stacksizeU ← toU32Checked stacksize
              let firstlinenoU ← toU32Checked firstlineno
              code310Check codeF consts names varnames freevars cellvars filename name lnotab refs
              .ok (Option.some (Obj.code310 argcountU posonlyU kwonlyU nlocalsU stacksizeU
                     (u32OfInt flagsRaw) codeF consts names varnames freevars cellvars filename
                     name firstlinenoU lnotab), input, refs, idx)
            else if v.major == 3 && (v.minor == 11 || v.minor == 12 || v.minor == 13) then do
              let (argcount, input) ← rLong input
              let (posonlyargcount, input) ← rLong input
              let (kwonlyargcount, input) ← rLong input
              let (stacksize, input) ← rLong input
              let (flagsRaw, input) ← rLong input
              let (codeF, input, refs) ← rObjectSome f v input refs
              let (consts, input, refs) ← rObjectSome f v input refs
              let (names, input, refs) ← rObjectSome f v input refs
              let (localsplusnames, input, refs) ← rObjectSome f v input refs
              let (localspluskinds, input, refs) ← rObjectSome f v input refs
              let (filename, input, refs) ← rObjectSome f v input refs
              let (name, input, refs) ← rObjectSome f v input refs
              let (qualname, input, refs) ← rObjectSome f v input refs
              let (firstlineno, input) ← rLong input
              let (linetable, input, refs) ← rObjectSome f v input refs
              let (exceptiontable, input, refs) ← rObjectSome f v input refs
              let argcountU ← toU32Checked argcount
              let posonlyU ← toU32Checked posonlyargcount
              let kwonlyU ← toU32Checked kwonlyargcount
              let stacksizeU ← toU32Checked stacksize
              let firstlinenoU ← toU32Checked firstlineno
              code311Check codeF consts names localsplusnames localspluskinds filename name
                qualname linetable exceptiontable refs
              .ok (Option.some (Obj.code311 11 argcountU posonlyU kwonlyU stacksizeU
                     (u32OfInt flagsRaw) codeF consts names localsplusnames localspluskinds
                     filename name qualname firstlinenoU linetable exceptiontable),
                   input, refs, idx)
            else .panicked
        | .ref => do
            let (index0, input) ← rLong input
            let index := usizeOfInt index0
            match refs.get? index with
            | Option.some _ => .ok (Option.some (Obj.loadRef index), input, refs, idx)
            | Option.none => .err .invalidReference
        | .unknown => .err .invalidKind
        | .stopIteration => .panicked
        | .flagRef => .panicked
      match stepped with
      | .ok (obj, input, refs, idx) =>
          match rFinish flag obj idx refs with
          | .ok (o, refs) => .ok (o, input, refs)
          | .err e => .err e
          | .panicked => .panicked
          | .fuelOut => .fuelOut
      | .err e => .err e
      | .panicked => .panicked
      | .fuelOut => .fuelOut

/-- `r_object()?.ok_or(Error::UnexpectedNull)` as used for code-object
fields. -/
def rObjectSome : (fuel : Nat) → (v : PyVersion) → (input : List Nat) → (refs : List Obj) →
    Res (Obj × List Nat × List Obj)
  | 0, _, _, _ => .fuelOut
  | f + 1, v, input, refs =>
    match rObject f v input refs with
    | .ok (Option.some o, input, refs) => .ok (o, input, refs)
    | .ok (Option.none, _, _) => .err .unexpectedNull
    | .err e => .err e
    | .panicked => .panicked
    | .fuelOut => .fuelOut

/-- `r_hashmap`: key/value pairs inserted into an `IndexMap` until a null
result ends the loop. -/
def rHashmap : (fuel : Nat) → (v : PyVersion) → (input : List Nat) → (refs : List Obj) →
    (acc : List (HObj × Obj)) → Res (List (HObj × Obj) × List Nat × List Obj)
  | 0, _, _, _, _ => .fuelOut
  | f + 1, v, input, refs, acc =>
      match rObject f v input refs with
      | .ok (Option.none, input, refs) => .ok (acc, input, refs)
      | .ok (Option.some key, input, refs) =>
          match rObject f v input refs with
          | .ok (Option.none, input, refs) => .ok (acc, input, refs)
          | .ok (Option.some value, input, refs) =>
              match key.tryHashable with
              | .ok hk => rHashmap f v input refs (dictInsert acc hk value)
              | .err e => .err e
              | .panicked => .panicked
              | .fuelOut => .fuelOut
          | .err e => .err e
          | .panicked => .panicked
          | .fuelOut => .fuelOut
      | .err e => .err e
      | .panicked => .panicked
      | .fuelOut => .fuelOut

/-- `r_vec`: `n` sub-objects, a null element failing with the
kind-appropriate error. -/
def rVec : (fuel : Nat) → (v : PyVersion) → (n : Nat) → (k : Kind) → (input : List Nat) →
    (refs : List Obj) → Res (List Obj × List Nat × List Obj)
  | 0, _, _, _, _, _ => .fuelOut
  | f + 1, v, n, k, input, refs =>
    match n with
    | 0 => .ok ([], input, refs)
    | m + 1 =>
        match rObject f v input refs with
        | .ok (Option.some o, input, refs) =>
            match rVec f v m k input refs with
            | .ok (os, input, refs) => .ok (o :: os, input, refs)
            | .err e => .err e
            | .panicked => .panicked
            | .fuelOut => .fuelOut
        | .ok (Option.none, _, _) =>
            .err (match k with
              | Kind.tuple => .nullInTuple
              | Kind.list => .nullInList
              | Kind.set => .nullInSet
              | _ => .invalidKind)
        | .err e => .err e
        | .panicked => .panicked
        | .fuelOut => .fuelOut

end

/-- `PyReader::read_object` (and `load_bytes` reference return): a cursor
already at the end of input is a `panic!`; otherwise one `r_object`, with a
null result reported as `Error::UnexpectedObject`.  Returns the root object
together with the final reference table. -/
def readObject (fuel : Nat) (v : PyVersion) (data : List Nat) : Res (Obj × List Obj) :=
  match data with
  | [] => .panicked
  | _ :: _ =>
      match rObject fuel v data [] with
      | .ok (Option.some o, _, refs) => .ok (o, refs)
      | .ok (Option.none, _, _) => .err .unexpectedObject
      | .err e => .err e
      | .panicked => .panicked
      | .fuelOut => .fuelOut

/-- `load_bytes`: versions before 3.0 are rejected, then one `read_object`
on a fresh reader. -/
def loadBytes (fuel : Nat) (data : List Nat) (v : PyVersion) : Res (Obj × List Obj) :=
  if PyVersion.le v (PyVersion.new 3 0) ∧ v ≠ PyVersion.new 3 0 then
    .err .unsupportedPyVersion
  else readObject fuel v data

/-! ### Writer (`writer.rs`) -/

/-- `MAX_DEPTH` on non-Windows targets (`writer.rs` picks 1000 on Windows,
2000 elsewhere; the development fixes the non-Windows build). -/
def MAX_DEPTH : Nat := 2000

/-- Little-endian byte emission of `n` into `w` bytes. -/
def leBytes : Nat → Nat → List Nat
  | 0, _ => []
  | w + 1, n => n % 256 :: leBytes w (n / 256)

/-- `w_long`: a value written as 4 little-endian bytes of its `i32`
two's-complement image. -/
def wLong (v : Int) : List Nat := leBytes 4 (v % (2 ^ 32 : Int)).toNat

/-- `w_u16`. -/
def wU16 (d : Nat) : List Nat := leBytes 2 (d % 2 ^ 16)

/-- `w_u8` (the Rust side receives an already-truncated `u8`, e.g. via
`as u8`). -/
def wU8 (b : Nat) : List Nat := [b % 256]

/-- `w_kind`: the tag byte, with the ref-flag bit forced on demand. -/
def wKind (k : Kind) (isRef : Bool) : List Nat :=
  if isRef then [Nat.lor k.toByte 128] else [k.toByte]

/-- The 15-bit digit decomposition loop of `w_PyLong`, with an explicit
iteration bound (the Rust loop runs while the value is non-zero; the value
strictly shrinks every round, so `n` rounds always suffice and the bound is
an embedding artifact, never reached). -/
def pyLongDigitsAux : Nat → Nat → List Nat
  | 0, _ => []
  | fuel + 1, n =>
      if n = 0 then [] else Nat.land n 0x7FFF :: pyLongDigitsAux fuel (n >>> 15)

/-- The 15-bit digit decomposition of `w_PyLong` (least significant first;
the zero value yields no digits). -/
def pyLongDigits (n : Nat) : List Nat := pyLongDigitsAux n n

/-- `w_PyLong`: signed digit count, then the digits as `u16`s. -/
def wPyLong (num : Int) : List Nat :=
  let digits := pyLongDigits num.natAbs
  wLong ((digits.length : Int) * (if num < 0 then -1 else 1)) ++
    digits.flatMap (fun d => wU16 d)

/-- `f64::to_string` of the Rust standard library, abstracted (see
`parseF64Text`); never exercised by the theorems below, which fix
`marshal_version > 1`. -/
def formatF64Text (_bits : Nat) : List Nat := []

/-- `w_float_str`: `w_string(value.to_string(), true)`. -/
def wFloatStrBytes (bits : Nat) : List Nat :=
  wU8 (formatF64Text bits).length ++ (formatF64Text bits).map (· % 256)

/-- `i32::try_from(u32)`: fails on values at or above `2^31`. -/
def toI32Checked (n : Nat) : Res Int :=
  if 2 ^ 31 ≤ n then .err .invalidConversion else .ok (n : Int)

mutual

/-- `PyWriter::w_object`: depth check, then tag-for-tag serialization.
`depth` is the Rust depth counter as already incremented for this call (the
top-level call runs at depth 1); the error fires exactly when it passes
`MAX_DEPTH`.  `fuel` is the embedding artifact bounding the recursion
structurally. -/
def wObject (refs : List Obj) (mv : Nat) :
    (fuel : Nat) → (depth : Nat) → Option Obj → Bool → Res (List Nat)
  | 0, _, _, _ => .fuelOut
  | f + 1, depth, obj, isRef =>
    if MAX_DEPTH < depth then .err .depthLimitExceeded
    else match obj with
    | Option.none => .ok (wKind .nullKind isRef)
    | Option.some Obj.none => .ok (wKind .noneKind isRef)
    | Option.some Obj.stopIteration => .ok (wKind .stopIteration isRef)
    | Option.some Obj.ellipsis => .ok (wKind .ellipsis isRef)
    | Option.some (Obj.bool b) =>
        .ok (wKind (if b then Kind.trueKind else Kind.falseKind) isRef)
    | Option.some (Obj.long num) =>
        if -(2 ^ 31 : Int) ≤ num ∧ num ≤ (2 ^ 31 : Int) - 1 then
          .ok (wKind .int isRef ++ wLong num)
        else
          .ok (wKind .long isRef ++ wPyLong num)
    | Option.some (Obj.float bits) =>
        if 1 < mv then .ok (wKind .binaryFloat isRef ++ leBytes 8 (bits % 2 ^ 64))
        else .ok (wKind .float isRef ++ wFloatStrBytes bits)
    | Option.some (Obj.complex re im) =>
        if 1 < mv then
          .ok (wKind .binaryComplex isRef ++ leBytes 8 (re % 2 ^ 64) ++ leBytes 8 (im % 2 ^ 64))
        else
          .ok (wKind .complex isRef ++ wFloatStrBytes re ++ wFloatStrBytes im)
    | Option.some (Obj.bytes bs) =>
        .ok (wKind .string isRef ++ wLong bs.length ++ bs.map (· % 256))
    | Option.some (Obj.string ps) =>
        match ps.kind with
        | Kind.ascii =>
            .ok (wKind ps.kind isRef ++ wLong ps.value.length ++ ps.value.map (· % 256))
        | Kind.asciiInterned =>
            .ok (wKind ps.kind isRef ++ wLong ps.value.length ++ ps.value.map (· % 256))
        | Kind.interned =>
            .ok (wKind ps.kind isRef ++ wLong ps.value.length ++ ps.value.map (· % 256))
        | Kind.shortAscii =>
            .ok (wKind ps.kind isRef ++ wU8 ps.value.length ++ ps.value.map (· % 256))
        | Kind.shortAsciiInterned =>
            .ok (wKind ps.kind isRef ++ wU8 ps.value.length ++ ps.value.map (· % 256))
        | Kind.unicode =>
            .ok (wKind .unicode isRef ++ wLong ps.value.length ++ ps.value.map (· % 256))
        | _ => .panicked
    | Option.some (Obj.tuple xs) => do
        let body ← wObjList refs mv f (depth + 1) xs
        if 4 ≤ mv ∧ xs.length ≤ 255 then
          .ok (wKind .smallTuple isRef ++ wU8 xs.length ++ body)
        else
          .ok (wKind .tuple isRef ++ wLong xs.length ++ body)
    | Option.some (Obj.list xs) => do
        let body ← wObjList refs mv f (depth + 1) xs
        .ok (wKind .list isRef ++ wLong xs.length ++ body)
    | Option.some (Obj.dict entries) => do
        let body ← wDictEntries refs mv f (depth + 1) entries
        .ok (wKind .dict isRef ++ body ++ wKind .nullKind isRef)
    | Option.some (Obj.set xs) => do
        let body ← wHObjList refs mv f (depth + 1) xs
        .ok (wKind .set isRef ++ wLong xs.length ++ body)
    | Option.some (Obj.frozenset xs) => do
        let body ← wHObjList refs mv f (depth + 1) xs
        .ok (wKind .frozenset isRef ++ wLong xs.length ++ body)
    | Option.some (Obj.code310 argcount posonlyargcount kwonlyargcount nlocals stacksize flags
        code consts names varnames freevars cellvars filename name firstlineno lnotab) => do
        let argcountI ← toI32Checked argcount
        let posonlyI ← toI32Checked posonlyargcount
        let kwonlyI ← toI32Checked kwonlyargcount
        let nlocalsI ← toI32Checked nlocals
        let stacksizeI ← toI32Checked stacksize
        let flagsI ← toI32Checked flags
        let codeB ← wObject refs mv f (depth + 1) (Option.some code) false
        let constsB ← wObject refs mv f (depth + 1) (Option.some consts) false
        let namesB ← wObject refs mv f (depth + 1) (Option.some names) false
        let varnamesB ← wObject refs mv f (depth + 1) (Option.some varnames) false
        let freevarsB ← wObject refs mv f (depth + 1) (Option.some freevars) false
        let cellvarsB ← wObject refs mv f (depth + 1) (Option.some cellvars) false
        let filenameB ← wObject refs mv f (depth + 1) (Option.some filename) false
        let nameB ← wObject refs mv f (depth + 1) (Option.some name) false
        let firstlinenoI ← toI32Checked firstlineno
        let lnotabB ← wObject refs mv f (depth + 1) (Option.some lnotab) false
        .ok (wKind .code isRef ++ wLong argcountI ++ wLong posonlyI ++ wLong kwonlyI ++
          wLong nlocalsI ++ wLong stacksizeI ++ wLong flagsI ++ codeB ++ constsB ++ namesB ++
          varnamesB ++ freevarsB ++ cellvarsB ++ filenameB ++ nameB ++ wLong firstlinenoI ++
          lnotabB)
    | Option.some (Obj.code311 _ argcount posonlyargcount kwonlyargcount stacksize flags
        code consts names localsplusnames localspluskinds filename name qualname firstlineno
        linetable exceptiontable) => do
        let argcountI ← toI32Checked argcount
        let posonlyI ← toI32Checked posonlyargcount
        let kwonlyI ← toI32Checked kwonlyargcount
        let stacksizeI ← toI32Checked stacksize
        let flagsI ← toI32Checked flags
        let codeB ← wObject refs mv f (depth + 1) (Option.some code) false
        let constsB ← wObject refs mv f (depth + 1) (Option.some consts) false
        let namesB ← wObject refs mv f (depth + 1) (Option.some names) false
        let localsplusnamesB ← wObject refs mv f (depth + 1) (Option.some localsplusnames) false
        let localspluskindsB ← wObject refs mv f (depth + 1) (Option.some localspluskinds) false
        let filenameB ← wObject refs mv f (depth + 1) (Option.some filename) false
        let nameB ← wObject refs mv f (depth + 1) (Option.some name) false
        let qualnameB ← wObject refs mv f (depth + 1) (Option.some qualname) false
        let firstlinenoI ← toI32Checked firstlineno
        let linetableB ← wObject refs mv f (depth + 1) (Option.some linetable) false
        let exceptiontableB ← wObject refs mv f (depth + 1) (Option.some exceptiontable) false
        .ok (wKind .code isRef ++ wLong argcountI ++ wLong posonlyI ++ wLong kwonlyI ++
          wLong stacksizeI ++ wLong flagsI ++ codeB ++ constsB ++ namesB ++ localsplusnamesB ++
          localspluskindsB ++ filenameB ++ nameB ++ qualnameB ++ wLong firstlinenoI ++
          linetableB ++ exceptiontableB)
    | Option.some (Obj.loadRef index) =>
        match refs.get? index with
        | Option.none => .panicked
        | Option.some _ => .ok (wKind .ref isRef ++ wLong index)
    | Option.some (Obj.storeRef index) =>
        match refs.get? index with
        | Option.none => .err (.invalidReferenceAt index)
        | Option.some reference => wObject refs mv f (depth + 1) (Option.some reference) true
  termination_by structural fuel _ _ _ => fuel

/-- Sequential `w_object(Some(item), false)` over tuple/list items; every
item is written at the same depth. -/
def wObjList (refs : List Obj) (mv : Nat) :
    (fuel : Nat) → (depth : Nat) → List Obj → Res (List Nat)
  | 0, _, _ => .fuelOut
  | _ + 1, _, [] => .ok []
  | f + 1, depth, x :: xs => do
      let b ← wObject refs mv f depth (Option.some x) false
      let rest ← wObjList refs mv f depth xs
      .ok (b ++ rest)

/-- Sequential writes of hashable set elements (`(*item).clone().into()`). -/
def wHObjList (refs : List Obj) (mv : Nat) :
    (fuel : Nat) → (depth : Nat) → List HObj → Res (List Nat)
  | 0, _, _ => .fuelOut
  | _ + 1, _, [] => .ok []
  | f + 1, depth, x :: xs => do
      let b ← wObject refs mv f depth (Option.some x.toObj) false
      let rest ← wHObjList refs mv f depth xs
      .ok (b ++ rest)

/-- Sequential key/value writes of dict entries. -/
def wDictEntries (refs : List Obj) (mv : Nat) :
    (fuel : Nat) → (depth : Nat) → List (HObj × Obj) → Res (List Nat)
  | 0, _, _ => .fuelOut
  | _ + 1, _, [] => .ok []
  | f + 1, depth, (k, v) :: xs => do
      let kb ← wObject refs mv f depth (Option.some k.toObj) false
      let vb ← wObject refs mv f depth (Option.some v) false
      let rest ← wDictEntries refs mv f depth xs
      .ok (kb ++ vb ++ rest)

end

/-- `PyWriter::write_object`: one `w_object(obj, false)`, whose own frame
runs at depth 1. -/
def writeObject (fuel : Nat) (refs : List Obj) (mv : Nat) (obj : Option Obj) :
    Res (List Nat) :=
  wObject refs mv fuel 1 obj false

/-- `dump_bytes`: version gate, then a fresh writer over the supplied table
(`None` becomes the empty table). -/
def dumpBytes (fuel : Nat) (obj : Obj) (references : Option (List Obj)) (v : PyVersion)
    (mv : Nat) : Res (List Nat) :=
  if PyVersion.le v (PyVersion.new 3 0) ∧ v ≠ PyVersion.new 3 0 then
    .err .unsupportedPyVersion
  else writeObject fuel (references.getD []) mv (Option.some obj)

/-! ### Reference optimizer (`optimizer.rs`)

`Object::transform` applies a visitor once to a node and replaces the node
when the visitor returns a replacement; `ReferenceCounter` and
`ReferenceOptimizer` implement all container visitors themselves, so their
traversals are fully determined by `optimizer.rs`. -/

/-- `HashSet<usize>::insert` (model: insertion-ordered, duplicate-free
list). -/
def natInsert (xs : List Nat) (x : Nat) : List Nat :=
  if x ∈ xs then xs else xs ++ [x]

/-- `removed_references.iter().filter(|i| *i < index).count()`. -/
def countRemovedBelow (removed : List Nat) (i : Nat) : Nat :=
  (removed.filter (fun j => j < i)).length

/-- `removed_references.iter().any(|i| *i < *index)`. -/
def anyRemovedBelow (removed : List Nat) (i : Nat) : Bool :=
  removed.any (fun j => j < i)

mutual

/-- `ReferenceCounter` visitor on `Object`: collect the target indices of
every load placeholder, following store placeholders into the (unchanged)
table.  Dict keys are not visited (`visit_Dict` walks values only). -/
def cntObj : (fuel : Nat) → (refs : List Obj) → (used : List Nat) → Obj → Res (List Nat)
  | 0, _, _, _ => .fuelOut
  | f + 1, refs, used, obj =>
    match obj with
    | .loadRef i => .ok (natInsert used i)
    | .storeRef i =>
        match refs.get? i with
        | Option.none => .ok used
        | Option.some r => cntObj f refs used r
    | .tuple xs => cntList f refs used xs
    | .list xs => cntList f refs used xs
    | .dict es => cntDictVals f refs used es
    | .set xs => cntHList f refs used xs
    | .frozenset xs => cntHList f refs used xs
    | .code310 _ _ _ _ _ _ c cs ns vs fv cv fn nm _ ln => do
        let used ← cntObj f refs used c
        let used ← cntObj f refs used cs
        let used ← cntObj f refs used ns
        let used ← cntObj f refs used vs
        let used ← cntObj f refs used fv
        let used ← cntObj f refs used cv
        let used ← cntObj f refs used fn
        let used ← cntObj f refs used nm
        cntObj f refs used ln
    | .code311 _ _ _ _ _ _ c cs ns lpn lpk fn nm qn _ lt et => do
        let used ← cntObj f refs used c
        let used ← cntObj f refs used cs
        let used ← cntObj f refs used ns
        let used ← cntObj f refs used lpn
        let used ← cntObj f refs used lpk
        let used ← cntObj f refs used fn
        let used ← cntObj f refs used nm
        let used ← cntObj f refs used qn
        let used ← cntObj f refs used lt
        cntObj f refs used et
    | _ => .ok used

/-- Counter over tuple/list children. -/
def cntList : (fuel : Nat) → (refs : List Obj) → (used : List Nat) → List Obj →
    Res (List Nat)
  | 0, _, _, _ => .fuelOut
  | _ + 1, _, used, [] => .ok used
  | f + 1, refs, used, x :: xs => do
      let used ← cntObj f refs used x
      cntList f refs used xs

/-- Counter over dict values (`visit_Dict` iterates values only). -/
def cntDictVals : (fuel : Nat) → (refs : List Obj) → (used : List Nat) →
    List (HObj × Obj) → Res (List Nat)
  | 0, _, _, _ => .fuelOut
  | _ + 1, _, used, [] => .ok used
  | f + 1, refs, used, (_, v) :: es => do
      let used ← cntObj f refs used v
      cntDictVals f refs used es

/-- `ReferenceCounter` visitor on `ObjectHashable`. -/
def cntHObj : (fuel : Nat) → (refs : List Obj) → (used : List Nat) → HObj → Res (List Nat)
  | 0, _, _, _ => .fuelOut
  | f + 1, refs, used, h =>
    match h with
    | .loadRef i => .ok (natInsert used i)
    | .storeRef i =>
        match refs.get? i with
        | Option.none => .ok used
        | Option.some r => cntObj f refs used r
    | .tuple xs => cntHList f refs used xs
    | .frozenset xs => cntHList f refs used xs
    | _ => .ok used

/-- Counter over hashable element lists. -/
def cntHList : (fuel : Nat) → (refs : List Obj) → (used : List Nat) → List HObj →
    Res (List Nat)
  | 0, _, _, _ => .fuelOut
  | _ + 1, _, used, [] => .ok used
  | f + 1, refs, used, x :: xs => do
      let used ← cntHObj f refs used x
      cntHList f refs used xs

end

/-- `get_used_references`. -/
def getUsedReferences (fuel : Nat) (obj : Obj) (refs : List Obj) : Res (List Nat) :=
  cntObj fuel refs [] obj

mutual

/-- `ReferenceOptimizer` visitor on `Object`.  State: the table being edited
in place and the set of removed (original) indices; `used` is the usage set
collected beforehand.  Unused store placeholders are inlined (their slot
removed from the table), surviving placeholders renumbered by the count of
removed indices below them. -/
def optObj : (fuel : Nat) → (used : List Nat) → Obj → (refs : List Obj) →
    (removed : List Nat) → Res (Obj × List Obj × List Nat)
  | 0, _, _, _, _ => .fuelOut
  | f + 1, used, obj, refs, removed =>
    match obj with
    | .loadRef i =>
        if anyRemovedBelow removed i then
          .ok (.loadRef (i - countRemovedBelow removed i), refs, removed)
        else .ok (.loadRef i, refs, removed)
    | .storeRef i =>
        if i ∈ used then
          if anyRemovedBelow removed i then
            let ni := i - countRemovedBelow removed i
            match refs.get? ni with
            | Option.none => .panicked
            | Option.some robj => do
                let (robj2, refs2, removed2) ← optObj f used robj refs removed
                match setReference refs2 ni robj2 with
                | .ok refs3 => .ok (.storeRef ni, refs3, removed2)
                | .err e => .err e
                | .panicked => .panicked
                | .fuelOut => .fuelOut
          else .ok (.storeRef i, refs, removed)
        else
          let ni := i - countRemovedBelow removed i
          match refs.get? ni with
          | Option.none => .panicked
          | Option.some robj =>
              optObj f used robj (refs.eraseIdx ni) (natInsert removed i)
    | .tuple xs => do
        let (ys, refs, removed) ← optList f used xs refs removed
        .ok (.tuple ys, refs, removed)
    | .list xs => do
        let (ys, refs, removed) ← optList f used xs refs removed
        .ok (.list ys, refs, removed)
    | .dict es => do
        let (es2, refs, removed) ← optDictVals f used es refs removed
        .ok (.dict es2, refs, removed)
    | .set xs => do
        let (ys, refs, removed) ← optHListInPlace f used xs refs removed
        .ok (.set ys, refs, removed)
    | .frozenset xs => do
        let (ys, refs, removed) ← optHListInPlace f used xs refs removed
        .ok (.frozenset ys, refs, removed)
    | .code310 a b c d e fl cF cs ns vs fv cv fn nm fi ln => do
        let (cF, refs, removed) ← optObj f used cF refs removed
        let (cs, refs, removed) ← optObj f used cs refs removed
        let (ns, refs, removed) ← optObj f used ns refs removed
        let (vs, refs, removed) ← optObj f used vs refs removed
        let (fv, refs, removed) ← optObj f used fv refs removed
        let (cv, refs, removed) ← optObj f used cv refs removed
        let (fn, refs, removed) ← optObj f used fn refs removed
        let (nm, refs, removed) ← optObj f used nm refs removed
        let (ln, refs, removed) ← optObj f used ln refs removed
        .ok (.code310 a b c d e fl cF cs ns vs fv cv fn nm fi ln, refs, removed)
    | .code311 w a b c d fl cF cs ns lpn lpk fn nm qn fi lt et => do
        let (cF, refs, removed) ← optObj f used cF refs removed
        let (cs, refs, removed) ← optObj f used cs refs removed
        let (ns, refs, removed) ← optObj f used ns refs removed
        let (lpn, refs, removed) ← optObj f used lpn refs removed
        let (lpk, refs, removed) ← optObj f used lpk refs removed
        let (fn, refs, removed) ← optObj f used fn refs removed
        let (nm, refs, removed) ← optObj f used nm refs removed
        let (qn, refs, removed) ← optObj f used qn refs removed
        let (lt, refs, removed) ← optObj f used lt refs removed
        let (et, refs, removed) ← optObj f used et refs removed
        .ok (.code311 w a b c d fl cF cs ns lpn lpk fn nm qn fi lt et, refs, removed)
    | x => .ok (x, refs, removed)

/-- Optimizer over tuple/list children. -/
def optList : (fuel : Nat) → (used : List Nat) → List Obj → (refs : List Obj) →
    (removed : List Nat) → Res (List Obj × List Obj × List Nat)
  | 0, _, _, _, _ => .fuelOut
  | _ + 1, _, [], refs, removed => .ok ([], refs, removed)
  | f + 1, used, x :: rest, refs, removed => do
      let (y, refs, removed) ← optObj f used x refs removed
      let (ys, refs, removed) ← optList f used rest refs removed
      .ok (y :: ys, refs, removed)

/-- Optimizer over dict values (`visit_Dict` transforms values only; keys are
left untouched). -/
def optDictVals : (fuel : Nat) → (used : List Nat) → List (HObj × Obj) →
    (refs : List Obj) → (removed : List Nat) →
    Res (List (HObj × Obj) × List Obj × List Nat)
  | 0, _, _, _, _ => .fuelOut
  | _ + 1, _, [], refs, removed => .ok ([], refs, removed)
  | f + 1, used, (k, v) :: rest, refs, removed => do
      let (v2, refs, removed) ← optObj f used v refs removed
      let (rest2, refs, removed) ← optDictVals f used rest refs removed
      .ok ((k, v2) :: rest2, refs, removed)

/-- `visit_Set`/`visit_FrozenSet`: elements mutated in place through
`get_index_mut2` (no re-deduplication). -/
def optHListInPlace : (fuel : Nat) → (used : List Nat) → List HObj → (refs : List Obj) →
    (removed : List Nat) → Res (List HObj × List Obj × List Nat)
  | 0, _, _, _, _ => .fuelOut
  | _ + 1, _, [], refs, removed => .ok ([], refs, removed)
  | f + 1, used, x :: rest, refs, removed => do
      let (y, refs, removed) ← optHObj f used x refs removed
      let (ys, refs, removed) ← optHListInPlace f used rest refs removed
      .ok (y :: ys, refs, removed)

/-- `ReferenceOptimizer` visitor on `ObjectHashable`: only tuple children and
nested hashable frozensets are walked (`visit_HashableLoadRef`/`StoreRef`
keep the trait default, so hashable placeholders are never renumbered). -/
def optHObj : (fuel : Nat) → (used : List Nat) → HObj → (refs : List Obj) →
    (removed : List Nat) → Res (HObj × List Obj × List Nat)
  | 0, _, _, _, _ => .fuelOut
  | f + 1, used, h, refs, removed =>
    match h with
    | .tuple xs => do
        let (ys, refs, removed) ← optHListInPlace f used xs refs removed
        .ok (.tuple ys, refs, removed)
    | .frozenset xs => do
        let (ys, refs, removed) ← optHFrozenRebuild f used xs refs removed []
        .ok (.frozenset ys, refs, removed)
    | x => .ok (x, refs, removed)

/-- `visit_HashableFrozenSet`: a fresh `HashableHashSet` is rebuilt by
inserting the transformed elements in iteration order (so equal results
collapse). -/
def optHFrozenRebuild : (fuel : Nat) → (used : List Nat) → List HObj →
    (refs : List Obj) → (removed : List Nat) → (acc : List HObj) →
    Res (List HObj × List Obj × List Nat)
  | 0, _, _, _, _, _ => .fuelOut
  | _ + 1, _, [], refs, removed, acc => .ok (acc, refs, removed)
  | f + 1, used, x :: rest, refs, removed, acc => do
      let (y, refs, removed) ← optHObj f used x refs removed
      optHFrozenRebuild f used rest refs removed (hsetInsert acc y)

end

/-- `optimize_references` (`lib.rs`): the usage pass, then the optimizer
transform of the root; the pair of the rewritten root and the optimizer's
table is returned.  (`lib.rs` names the returned field `new_references`; the
optimizer of the snapshot maintains its table in place in `references`,
which is the vector returned here.) -/
def optimizeReferences (fuel : Nat) (obj : Obj) (refs : List Obj) : Res (Obj × List Obj) := do
  let used ← getUsedReferences fuel obj refs
  let (o, refs2, _) ← optObj fuel used obj refs []
  .ok (o, refs2)

/-! ### Cycle resolver (`resolver.rs`)

`RecursiveCheck` and `Resolver` override only the placeholder visitors; the
recursion into container children comes from the crate's `walker` module,
which is absent from the source snapshot.  Modelled from the spec: the
traversal is a depth-first walk of the tree (tuple/list children, dict keys
and values, set/frozenset elements, code-object value fields); a visitor
replacement is substituted without re-walking the replacement. -/

mutual

/-- `RecursiveCheck` on `Object`: depth-first walk keeping a stack of table
indices being expanded.  A load placeholder whose target is already on the
stack is recorded as recursive; a store placeholder reentering itself is a
`panic!`.  Ref descents index the table directly (out of bounds is a panic).
Returns the accumulated recursive-index list (the stack is push/pop
balanced, so the caller's stack is restored). -/
def rcObj : (fuel : Nat) → (refs : List Obj) → Obj → (rec : List Nat) →
    (stack : List Nat) → Res (List Nat)
  | 0, _, _, _, _ => .fuelOut
  | f + 1, refs, obj, rec, stack =>
    match obj with
    | .loadRef i =>
        if i ∈ stack then .ok (rec ++ [i])
        else
          match refs.get? i with
          | Option.none => .panicked
          | Option.some r => rcObj f refs r rec (stack ++ [i])
    | .storeRef i =>
        if i ∈ stack then .panicked
        else
          match refs.get? i with
          | Option.none => .panicked
          | Option.some r => rcObj f refs r rec (stack ++ [i])
    | .tuple xs => rcList f refs xs rec stack
    | .list xs => rcList f refs xs rec stack
    | .dict es => rcDict f refs es rec stack
    | .set xs => rcHList f refs xs rec stack
    | .frozenset xs => rcHList f refs xs rec stack
    | .code310 _ _ _ _ _ _ c cs ns vs fv cv fn nm _ ln => do
        let rec ← rcObj f refs c rec stack
        let rec ← rcObj f refs cs rec stack
        let rec ← rcObj f refs ns rec stack
        let rec ← rcObj f refs vs rec stack
        let rec ← rcObj f refs fv rec stack
        let rec ← rcObj f refs cv rec stack
        let rec ← rcObj f refs fn rec stack
        let rec ← rcObj f refs nm rec stack
        rcObj f refs ln rec stack
    | .code311 _ _ _ _ _ _ c cs ns lpn lpk fn nm qn _ lt et => do
        let rec ← rcObj f refs c rec stack
        let rec ← rcObj f refs cs rec stack
        let rec ← rcObj f refs ns rec stack
        let rec ← rcObj f refs lpn rec stack
        let rec ← rcObj f refs lpk rec stack
        let rec ← rcObj f refs fn rec stack
        let rec ← rcObj f refs nm rec stack
        let rec ← rcObj f refs qn rec stack
        let rec ← rcObj f refs lt rec stack
        rcObj f refs et rec stack
    | _ => .ok rec

/-- Children walk of `RecursiveCheck`. -/
def rcList : (fuel : Nat) → (refs : List Obj) → List Obj → (rec : List Nat) →
    (stack : List Nat) → Res (List Nat)
  | 0, _, _, _, _ => .fuelOut
  | _ + 1, _, [], rec, _ => .ok rec
  | f + 1, refs, x :: rest, rec, stack => do
      let rec ← rcObj f refs x rec stack
      rcList f refs rest rec stack

/-- Dict walk of `RecursiveCheck` (keys through the hashable visitors, then
values). -/
def rcDict : (fuel : Nat) → (refs : List Obj) → List (HObj × Obj) → (rec : List Nat) →
    (stack : List Nat) → Res (List Nat)
  | 0, _, _, _, _ => .fuelOut
  | _ + 1, _, [], rec, _ => .ok rec
  | f + 1, refs, (k, v) :: rest, rec, stack => do
      let rec ← rcHObj f refs k rec stack
      let rec ← rcObj f refs v rec stack
      rcDict f refs rest rec stack

/-- `RecursiveCheck` on `ObjectHashable` (`visit_HashableLoadRef`/
`visit_HashableStoreRef` mirror the object versions). -/
def rcHObj : (fuel : Nat) → (refs : List Obj) → HObj → (rec : List Nat) →
    (stack : List Nat) → Res (List Nat)
  | 0, _, _, _, _ => .fuelOut
  | f + 1, refs, h, rec, stack =>
    match h with
    | .loadRef i =>
        if i ∈ stack then .ok (rec ++ [i])
        else
          match refs.get? i with
          | Option.none => .panicked
          | Option.some r => rcObj f refs r rec (stack ++ [i])
    | .storeRef i =>
        if i ∈ stack then .panicked
        else
          match refs.get? i with
          | Option.none => .panicked
          | Option.some r => rcObj f refs r rec (stack ++ [i])
    | .tuple xs => rcHList f refs xs rec stack
    | .frozenset xs => rcHList f refs xs rec stack
    | _ => .ok rec

/-- Hashable-element walk of `RecursiveCheck`. -/
def rcHList : (fuel : Nat) → (refs : List Obj) → List HObj → (rec : List Nat) →
    (stack : List Nat) → Res (List Nat)
  | 0, _, _, _, _ => .fuelOut
  | _ + 1, _, [], rec, _ => .ok rec
  | f + 1, refs, x :: rest, rec, stack => do
      let rec ← rcHObj f refs x rec stack
      rcHList f refs rest rec stack

end

/-- `get_recursive_refs`. -/
def getRecursiveRefs (fuel : Nat) (obj : Obj) (refs : List Obj) : Res (List Nat) :=
  rcObj fuel refs obj [] []

mutual

/-- `Resolver` on `Object`: a non-recursive load placeholder is replaced by a
direct clone of its table slot (the replacement is not re-walked); a
non-recursive store placeholder resolves its slot in place and stays a
placeholder in the tree; recursive indices are left alone.  Both directly
index the table (out of bounds panics). -/
def rsObj : (fuel : Nat) → (rec : List Nat) → Obj → (refs : List Obj) →
    Res (Obj × List Obj)
  | 0, _, _, _ => .fuelOut
  | f + 1, rec, obj, refs =>
    match obj with
    | .loadRef i =>
        if i ∈ rec then .ok (.loadRef i, refs)
        else
          match refs.get? i with
          | Option.none => .panicked
          | Option.some r => .ok (r, refs)
    | .storeRef i =>
        if i ∈ rec then .ok (.storeRef i, refs)
        else
          match refs.get? i with
          | Option.none => .panicked
          | Option.some r => do
              let (r2, refs2) ← rsObj f rec r refs
              match setReference refs2 i r2 with
              | .ok refs3 => .ok (.storeRef i, refs3)
              | .err e => .err e
              | .panicked => .panicked
              | .fuelOut => .fuelOut
    | .tuple xs => do
        let (ys, refs) ← rsList f rec xs refs
        .ok (.tuple ys, refs)
    | .list xs => do
        let (ys, refs) ← rsList f rec xs refs
        .ok (.list ys, refs)
    | .dict es => do
        let (es2, refs) ← rsDict f rec es refs
        .ok (.dict es2, refs)
    | .set xs => do
        let (ys, refs) ← rsHList f rec xs refs
        .ok (.set ys, refs)
    | .frozenset xs => do
        let (ys, refs) ← rsHList f rec xs refs
        .ok (.frozenset ys, refs)
    | .code310 a b c d e fl cF cs ns vs fv cv fn nm fi ln => do
        let (cF, refs) ← rsObj f rec cF refs
        let (cs, refs) ← rsObj f rec cs refs
        let (ns, refs) ← rsObj f rec ns refs
        let (vs, refs) ← rsObj f rec vs refs
        let (fv, refs) ← rsObj f rec fv refs
        let (cv, refs) ← rsObj f rec cv refs
        let (fn, refs) ← rsObj f rec fn refs
        let (nm, refs) ← rsObj f rec nm refs
        let (ln, refs) ← rsObj f rec ln refs
        .ok (.code310 a b c d e fl cF cs ns vs fv cv fn nm fi ln, refs)
    | .code311 w a b c d fl cF cs ns lpn lpk fn nm qn fi lt et => do
        let (cF, refs) ← rsObj f rec cF refs
        let (cs, refs) ← rsObj f rec cs refs
        let (ns, refs) ← rsObj f rec ns refs
        let (lpn, refs) ← rsObj f rec lpn refs
        let (lpk, refs) ← rsObj f rec lpk refs
        let (fn, refs) ← rsObj f rec fn refs
        let (nm, refs) ← rsObj f rec nm refs
        let (qn, refs) ← rsObj f rec qn refs
        let (lt, refs) ← rsObj f rec lt refs
        let (et, refs) ← rsObj f rec et refs
        .ok (.code311 w a b c d fl cF cs ns lpn lpk fn nm qn fi lt et, refs)
    | x => .ok (x, refs)

/-- Children walk of `Resolver`. -/
def rsList : (fuel : Nat) → (rec : List Nat) → List Obj → (refs : List Obj) →
    Res (List Obj × List Obj)
  | 0, _, _, _ => .fuelOut
  | _ + 1, _, [], refs => .ok ([], refs)
  | f + 1, rec, x :: rest, refs => do
      let (y, refs) ← rsObj f rec x refs
      let (ys, refs) ← rsList f rec rest refs
      .ok (y :: ys, refs)

/-- Dict walk of `Resolver` (keys through the hashable visitors, then
values). -/
def rsDict : (fuel : Nat) → (rec : List Nat) → List (HObj × Obj) → (refs : List Obj) →
    Res (List (HObj × Obj) × List Obj)
  | 0, _, _, _ => .fuelOut
  | _ + 1, _, [], refs => .ok ([], refs)
  | f + 1, rec, (k, v) :: rest, refs => do
      let (k2, refs) ← rsHObj f rec k refs
      let (v2, refs) ← rsObj f rec v refs
      let (rest2, refs) ← rsDict f rec rest refs
      .ok ((k2, v2) :: rest2, refs)

/-- `Resolver` on `ObjectHashable`: a non-recursive hashable load goes
through `ObjectHashable::from_ref` and is replaced only on success (`.ok()`
drops the error and keeps the placeholder); a non-recursive hashable store
resolves its slot in place. -/
def rsHObj : (fuel : Nat) → (rec : List Nat) → HObj → (refs : List Obj) →
    Res (HObj × List Obj)
  | 0, _, _, _ => .fuelOut
  | f + 1, rec, h, refs =>
    match h with
    | .loadRef i =>
        if i ∈ rec then .ok (.loadRef i, refs)
        else
          match refs.get? i with
          | Option.none => .panicked
          | Option.some r =>
              match Obj.fromRef f r refs with
              | .ok h2 => .ok (h2, refs)
              | .err _ => .ok (.loadRef i, refs)
              | .panicked => .panicked
              | .fuelOut => .fuelOut
    | .storeRef i =>
        if i ∈ rec then .ok (.storeRef i, refs)
        else
          match refs.get? i with
          | Option.none => .panicked
          | Option.some r => do
              let (r2, refs2) ← rsObj f rec r refs
              match setReference refs2 i r2 with
              | .ok refs3 => .ok (.storeRef i, refs3)
              | .err e => .err e
              | .panicked => .panicked
              | .fuelOut => .fuelOut
    | .tuple xs => do
        let (ys, refs) ← rsHList f rec xs refs
        .ok (.tuple ys, refs)
    | .frozenset xs => do
        let (ys, refs) ← rsHList f rec xs refs
        .ok (.frozenset ys, refs)
    | x => .ok (x, refs)

/-- Hashable-element walk of `Resolver`. -/
def rsHList : (fuel : Nat) → (rec : List Nat) → List HObj → (refs : List Obj) →
    Res (List HObj × List Obj)
  | 0, _, _, _ => .fuelOut
  | _ + 1, _, [], refs => .ok ([], refs)
  | f + 1, rec, x :: rest, refs => do
      let (y, refs) ← rsHObj f rec x refs
      let (ys, refs) ← rsHList f rec rest refs
      .ok (y :: ys, refs)

end

/-- `resolve_all_refs`: optimize, detect recursive indices, run the resolver
transform over the root with the optimized table, optimize again. -/
def resolveAllRefs (fuel : Nat) (obj : Obj) (refs : List Obj) : Res (Obj × List Obj) := do
  let (o1, r1) ← optimizeReferences fuel obj refs
  let recs ← getRecursiveRefs fuel o1 r1
  let (o2, r2) ← rsObj fuel recs o1 r1
  let (o3, r3) ← optimizeReferences fuel o2 r2
  .ok (o3, r3)

/-! ### Container framing (`lib.rs` `load_pyc`/`dump_pyc`) -/

/-- `struct PycFile`. -/
structure PycFile : Type where
  pythonVersion : PyVersion
  timestamp : Option Nat
  hash : Nat
  object : Obj
  references : List Obj
  deriving Repr

/-- A little-endian read of `data[start..stop]` (`try_into().unwrap()` after
a slice; a slice reaching past the end is a panic). -/
def sliceLE (data : List Nat) (start stop : Nat) : Res Nat :=
  if stop ≤ data.length then
    .ok (leNat (((data.drop start).take (stop - start)).map (fun b => b % 256)))
  else .panicked

/-- `load_pyc`: magic at `[0..4]`, a timestamp at `[4..8]` only for
3.7-or-newer, the hash at `[8..16]` for 3.7-or-newer and at `[4..12]`
otherwise, and the marshal payload always starting at offset 16
(`&data[16..]`). -/
def loadPyc (fuel : Nat) (data : List Nat) : Res PycFile := do
  let magic ← sliceLE data 0 4
  let version ← PyVersion.fromMagic magic
  let timestamp ←
    if version.gePair 3 7 then
      match sliceLE data 4 8 with
      | .ok ts => .ok (Option.some ts)
      | .err e => .err e
      | .panicked => .panicked
      | .fuelOut => .fuelOut
    else .ok Option.none
  let hash ← if version.gePair 3 7 then sliceLE data 8 16 else sliceLE data 4 12
  let rest ← if 16 ≤ data.length then .ok (data.drop 16) else Res.panicked
  let (o, refs) ← loadBytes fuel rest version
  .ok ⟨version, timestamp, hash, o, refs⟩

/-- `dump_pyc`: magic, the timestamp only when present, always an 8-byte
hash, then one `write_object` over the file's reference table at marshal
version 4.  (The source splices `write_object`'s `Result` into the buffer;
its error case is modelled as propagating.) -/
def dumpPyc (fuel : Nat) (pyc : PycFile) : Res (List Nat) := do
  let magic ← pyc.pythonVersion.toMagic
  let body ← writeObject fuel pyc.references 4 (Option.some pyc.object)
  .ok (leBytes 4 magic ++
    (match pyc.timestamp with
     | Option.some ts => leBytes 4 ts
     | Option.none => []) ++
    leBytes 8 pyc.hash ++ body)

/-! ## Theorems for the claims -/

/-- Wire form of a sequence of 16-bit digits: each as two little-endian
bytes. -/
def digitBytes (ds : List Nat) : List Nat :=
  ds.flatMap (fun d => [d % 256, d / 256 % 256])

/-- The value the digit loop assembles: digit `i` is OR-ed in at bit
`15 * i`. -/
def longDigitsVal : List Nat → Nat
  | [] => 0
  | d :: ds => Nat.lor d (longDigitsVal ds <<< 15)

/-! ### Canonical values and the round-trip proof apparatus (C1)

`canonObj` carves out the placeholder-free values whose encoding the reader
must map back to the value itself: no load/store placeholders, no
code units (whose layout depends on the version the reader was built for),
no stop markers (the reader's stop-marker arm is a `todo!`), recorded string
kinds that the writer accepts, payload bytes in `u8` range, container
lengths within the count fields they are written to, distinct set elements
and dict keys. -/

mutual

/-- Combined structural measure used to found the round-trip induction. -/
def osize : Obj → Nat
  | .tuple xs => 1 + osizeList xs
  | .list xs => 1 + osizeList xs
  | .dict es => 1 + dsize es
  | .set xs => 1 + hsizeList xs
  | .frozenset xs => 1 + hsizeList xs
  | _ => 1

/-- Measure of a list of objects. -/
def osizeList : List Obj → Nat
  | [] => 0
  | x :: xs => 1 + osize x + osizeList xs

/-- Measure of dict entries. -/
def dsize : List (HObj × Obj) → Nat
  | [] => 0
  | (k, v) :: es => 1 + hsize k + osize v + dsize es

/-- Measure of a hashable value. -/
def hsize : HObj → Nat
  | .tuple hs => 1 + hsizeList hs
  | .frozenset hs => 1 + hsizeList hs
  | _ => 1

/-- Measure of a list of hashable values. -/
def hsizeList : List HObj → Nat
  | [] => 0
  | h :: hs => 1 + hsize h + hsizeList hs

end

/-- Recorded string kinds the writer accepts, with the length bound of the
length field each kind is written with. -/
def canonStr (ps : PyString) : Bool :=
  ps.value.all (fun b => decide (b < 256)) &&
  match ps.kind with
  | .ascii => decide (ps.value.length < 2 ^ 31)
  | .asciiInterned => decide (ps.value.length < 2 ^ 31)
  | .interned => decide (ps.value.length < 2 ^ 31)
  | .unicode => decide (ps.value.length < 2 ^ 31)
  | .shortAscii => decide (ps.value.length ≤ 255)
  | .shortAsciiInterned => decide (ps.value.length ≤ 255)
  | _ => false

/-- `IndexMap` freshness: no key of `acc` equals `k`. -/
def keysFresh (acc : List (HObj × Obj)) (k : HObj) : Bool :=
  acc.all (fun e => !(e.1.beq k))

mutual

/-- Canonical (round-trippable) objects; see the section comment. -/
def canonObj : Obj → Bool
  | .none => true
  | .ellipsis => true
  | .bool _ => true
  | .long n => decide ((pyLongDigits n.natAbs).length < 2 ^ 31)
  | .float bits => decide (bits < 2 ^ 64)
  | .complex re im => decide (re < 2 ^ 64) && decide (im < 2 ^ 64)
  | .bytes bs => decide (bs.length < 2 ^ 31) && bs.all (fun b => decide (b < 256))
  | .string ps => canonStr ps
  | .tuple xs => decide (xs.length < 2 ^ 31) && canonList xs
  | .list xs => decide (xs.length < 2 ^ 31) && canonList xs
  | .dict es => canonDict [] es
  | .set xs => decide (xs.length < 2 ^ 31) && canonHList xs && hdistinct [] xs
  | .frozenset xs => decide (xs.length < 2 ^ 31) && canonHList xs && hdistinct [] xs
  | _ => false

/-- Canonical object lists. -/
def canonList : List Obj → Bool
  | [] => true
  | x :: xs => canonObj x && canonList xs

/-- Canonical dict entries with keys fresh relative to the accumulated
prefix (so the reader's `IndexMap` inserts reproduce the entry list). -/
def canonDict (acc : List (HObj × Obj)) : List (HObj × Obj) → Bool
  | [] => true
  | (k, v) :: es =>
      keysFresh acc k && canonHObj k && canonObj v && canonDict (acc ++ [(k, v)]) es

/-- Canonical hashable values. -/
def canonHObj : HObj → Bool
  | .none => true
  | .ellipsis => true
  | .bool _ => true
  | .long n => decide ((pyLongDigits n.natAbs).length < 2 ^ 31)
  | .float bits => decide (bits < 2 ^ 64)
  | .complex re im => decide (re < 2 ^ 64) && decide (im < 2 ^ 64)
  | .bytes bs => decide (bs.length < 2 ^ 31) && bs.all (fun b => decide (b < 256))
  | .string ps => canonStr ps
  | .tuple hs => decide (hs.length < 2 ^ 31) && canonHList hs
  | .frozenset hs => decide (hs.length < 2 ^ 31) && canonHList hs && hdistinct [] hs
  | _ => false

/-- Canonical hashable lists. -/
def canonHList : List HObj → Bool
  | [] => true
  | h :: hs => canonHObj h && canonHList hs

/-- Pairwise distinctness in insertion order: each element differs (by the
structural equality that `IndexSet` uses) from everything inserted before
it. -/
def hdistinct (acc : List HObj) : List HObj → Bool
  | [] => true
  | h :: hs => acc.all (fun y => !(y.beq h)) && hdistinct (acc ++ [h]) hs

end

mutual

/-- Reader fuel sufficient to decode the encoding of a canonical object. -/
def rCost : Obj → Nat
  | .tuple xs => 1 + vCost xs
  | .list xs => 1 + vCost xs
  | .dict es => 1 + dCost es
  | .set xs => 1 + max (hvCost xs) (cvCost xs)
  | .frozenset xs => 1 + max (hvCost xs) (cvCost xs)
  | _ => 1

/-- Fuel for `r_vec` over encoded children. -/
def vCost : List Obj → Nat
  | [] => 1
  | x :: xs => 1 + max (rCost x) (vCost xs)

/-- Fuel for `r_hashmap` over encoded entries plus the terminator. -/
def dCost : List (HObj × Obj) → Nat
  | [] => 2
  | (k, v) :: es => 1 + max (hCost k) (max (rCost v) (dCost es))

/-- Fuel to decode the encoding of a hashable value (as the object it is
written as). -/
def hCost : HObj → Nat
  | .tuple hs => 1 + hvCost hs
  | .frozenset hs => 1 + max (hvCost hs) (cvCost hs)
  | _ => 1

/-- Fuel for `r_vec` over encoded hashable elements. -/
def hvCost : List HObj → Nat
  | [] => 1
  | h :: hs => 1 + max (hCost h) (hvCost hs)

/-- Fuel for the `from_ref` conversion chain over decoded elements. -/
def cvCost : List HObj → Nat
  | [] => 1
  | h :: hs => 1 + max (fCost h) (cvCost hs)

/-- Fuel for one `from_ref` conversion of a decoded element. -/
def fCost : HObj → Nat
  | .tuple hs => 1 + fvCost hs
  | _ => 1

/-- Fuel for `from_ref` over tuple children. -/
def fvCost : List HObj → Nat
  | [] => 1
  | h :: hs => 1 + max (fCost h) (fvCost hs)

end

theorem shiftLeft_lor_distrib (a b k : Nat) :
    (a ||| b) <<< k = (a <<< k) ||| (b <<< k) := by
  apply Nat.eq_of_testBit_eq
  intro i
  simp only [Nat.testBit_shiftLeft, Nat.testBit_or]
  by_cases h : k ≤ i <;> simp [h]

theorem rLongDigits_ok (ds : List Nat) (hds : ∀ d ∈ ds, d ≤ 32768) :
    ∀ i acc rest, rLongDigits ds.length i acc (digitBytes ds ++ rest)
      = .ok (Nat.lor acc (longDigitsVal ds <<< (i * 15)), rest) := by
  induction ds with
  | nil => intro i acc rest; simp [rLongDigits, digitBytes, longDigitsVal, Nat.lor, Nat.or_zero]
  | cons d ds ih =>
      intro i acc rest
      have hd : d ≤ 32768 := hds d (by simp)
      simp only [digitBytes, List.flatMap_cons, List.cons_append, List.append_assoc,
        List.length_cons]
      rw [rLongDigits]
      simp only [rU16, rBytesN, leNat, Res.bind_ok, Res.bind_err, Res.bind_panicked,
        Res.bind_fuelOut]
      rw [show (d % 256 % 256 + 256 * (d / 256 % 256 % 256 + 256 * 0)) = d by omega]
      rw [if_neg (by omega)]
      have := ih (fun x hx => hds x (by simp [hx])) (i + 1)
        (Nat.lor acc (d <<< (i * 15))) rest
      simp only [digitBytes] at this
      simp only [List.nil_append]
      rw [this]
      congr 2
      have hOr : ∀ a b : Nat, Nat.lor a b = a ||| b := fun _ _ => rfl
      simp only [longDigitsVal, hOr]
      rw [shiftLeft_lor_distrib, Nat.lor_assoc]
      congr 2
      rw [Nat.shiftLeft_eq_mul_pow, Nat.shiftLeft_eq_mul_pow, Nat.shiftLeft_eq_mul_pow,
        Nat.mul_assoc, ← Nat.pow_add]
      ring_nf

theorem rLongDigits_err (pre : List Nat) (d : Nat) (suf : List Nat)
    (hpre : ∀ p ∈ pre, p ≤ 32768) (hlo : 32768 < d) (hhi : d < 65536) :
    ∀ i acc rest,
      rLongDigits (pre ++ d :: suf).length i acc (digitBytes (pre ++ d :: suf) ++ rest)
        = .err (.digitOutOfRange d) := by
  induction pre with
  | nil =>
      intro i acc rest
      simp only [List.nil_append, digitBytes, List.flatMap_cons, List.cons_append,
        List.append_assoc, List.length_cons]
      rw [rLongDigits]
      simp only [rU16, rBytesN, leNat, Res.bind_ok, Res.bind_err, Res.bind_panicked,
        Res.bind_fuelOut]
      rw [show (d % 256 % 256 + 256 * (d / 256 % 256 % 256 + 256 * 0)) = d by omega]
      rw [if_pos (by omega)]
  | cons p pre ih =>
      intro i acc rest
      have hp : p ≤ 32768 := hpre p (by simp)
      simp only [List.cons_append, digitBytes, List.flatMap_cons, List.append_assoc,
        List.length_cons]
      rw [rLongDigits]
      simp only [rU16, rBytesN, leNat, Res.bind_ok, Res.bind_err, Res.bind_panicked,
        Res.bind_fuelOut]
      rw [show (p % 256 % 256 + 256 * (p / 256 % 256 % 256 + 256 * 0)) = p by omega]
      rw [if_neg (by omega)]
      have := ih (fun x hx => hpre x (by simp [hx])) (i + 1)
        (Nat.lor acc (p <<< (i * 15))) rest
      simp only [digitBytes, List.length_append, List.length_cons, List.nil_append,
        List.append_assoc] at this ⊢
      exact this

/-! ### Byte-level primitive round-trips -/

theorem map_mod_id (bs : List Nat) (h : ∀ b ∈ bs, b < 256) :
    bs.map (· % 256) = bs := by
  induction bs with
  | nil => rfl
  | cons b rest ih =>
      simp only [List.map_cons, List.cons.injEq]
      exact ⟨Nat.mod_eq_of_lt (h b (by simp)), ih (fun x hx => h x (by simp [hx]))⟩

theorem rBytesN_exact (bs : List Nat) : ∀ rest,
    rBytesN bs.length (bs ++ rest) = .ok (bs.map (· % 256), rest) := by
  induction bs with
  | nil => intro rest; rfl
  | cons b tl ih =>
      intro rest
      simp only [List.length_cons, List.cons_append, rBytesN, List.append_eq, ih rest,
        List.map_cons]

theorem leBytes_length (w : Nat) : ∀ n, (leBytes w n).length = w := by
  induction w with
  | zero => intro n; rfl
  | succ w ih => intro n; simp [leBytes, ih]

theorem leBytes_lt (w : Nat) : ∀ n, ∀ b ∈ leBytes w n, b < 256 := by
  induction w with
  | zero => intro n b hb; simp [leBytes] at hb
  | succ w ih =>
      intro n b hb
      simp only [leBytes, List.mem_cons] at hb
      rcases hb with h | h
      · omega
      · exact ih (n / 256) b h

theorem leNat_leBytes (w : Nat) : ∀ n, leNat (leBytes w n) = n % 256 ^ w := by
  induction w with
  | zero => intro n; simp [leBytes, leNat, Nat.mod_one]
  | succ w ih =>
      intro n
      simp only [leBytes, leNat, ih (n / 256)]
      rw [Nat.pow_succ, Nat.mul_comm (256 ^ w) 256, Nat.mod_mul]

theorem rBytesN_leBytes (w n : Nat) (rest : List Nat) :
    rBytesN w (leBytes w n ++ rest) = .ok (leBytes w n, rest) := by
  have h1 := rBytesN_exact (leBytes w n) rest
  rw [leBytes_length] at h1
  rw [h1, map_mod_id _ (leBytes_lt w n)]

theorem rLong_wLong (v : Int) (hlo : -(2 ^ 31) ≤ v) (hhi : v < 2 ^ 31)
    (rest : List Nat) : rLong (wLong v ++ rest) = .ok (v, rest) := by
  simp only [wLong, rLong, rBytesN_leBytes, Res.bind_ok, leNat_leBytes]
  have hb : (v % (2 ^ 32 : Int)).toNat % 256 ^ 4 = (v % (2 ^ 32 : Int)).toNat := by
    apply Nat.mod_eq_of_lt
    have : (256 : Nat) ^ 4 = 2 ^ 32 := by norm_num
    omega
  rw [hb]
  simp only [toSigned, Res.ok.injEq, Prod.mk.injEq, and_true]
  split <;> omega

theorem rU8_wU8 (n : Nat) (h : n ≤ 255) (rest : List Nat) :
    rU8 (wU8 n ++ rest) = .ok (n, rest) := by
  simp only [wU8, List.cons_append, List.nil_append, rU8, Res.ok.injEq, Prod.mk.injEq,
    and_true]
  omega

theorem rFloatBin_leBytes (m : Nat) (rest : List Nat) :
    rFloatBin (leBytes 8 (m % 2 ^ 64) ++ rest) = .ok (m % 2 ^ 64, rest) := by
  simp only [rFloatBin, rBytesN_leBytes, Res.bind_ok, leNat_leBytes]
  have h8 : (256 : Nat) ^ 8 = 2 ^ 64 := by norm_num
  rw [h8, Nat.mod_mod_of_dvd m dvd_rfl]

theorem usizeOfInt_natCast (n : Nat) (h : n < 2 ^ 64) : usizeOfInt (n : Int) = n := by
  simp only [usizeOfInt]
  omega

/-! ### Transfer lemmas between hashable values and their object images -/

theorem toObjList_length (hs : List HObj) : (HObj.toObjList hs).length = hs.length := by
  induction hs with
  | nil => rfl
  | cons h tl ih => simp [HObj.toObjList, ih]

theorem fCost_pos (h : HObj) : 1 ≤ fCost h := by
  cases h <;> simp [fCost]

theorem fvCost_pos (hs : List HObj) : 1 ≤ fvCost hs := by
  cases hs <;> simp [fvCost]

theorem cvCost_pos (hs : List HObj) : 1 ≤ cvCost hs := by
  cases hs <;> simp [cvCost]

theorem rCost_pos (o : Obj) : 1 ≤ rCost o := by
  cases o <;> simp [rCost]

theorem vCost_pos (xs : List Obj) : 1 ≤ vCost xs := by
  cases xs <;> simp [vCost]

theorem dCost_pos (es : List (HObj × Obj)) : 1 ≤ dCost es := by
  cases es with
  | nil => simp [dCost]
  | cons e tl => obtain ⟨k, v⟩ := e; simp [dCost]

theorem hvCost_pos (hs : List HObj) : 1 ≤ hvCost hs := by
  cases hs <;> simp [hvCost]

mutual

theorem tryHashable_toObj (h : HObj) (hc : canonHObj h = true) :
    (HObj.toObj h).tryHashable = .ok h := by
  cases h with
  | tuple hs =>
      have hc' : canonHList hs = true := by
        simp only [canonHObj, Bool.and_eq_true] at hc; exact hc.2
      simp only [HObj.toObj, Obj.tryHashable, tryHashableList_toObj hs hc']
  | loadRef i => simp [canonHObj] at hc
  | storeRef i => simp [canonHObj] at hc
  | none => rfl
  | stopIteration => rfl
  | ellipsis => rfl
  | bool b => rfl
  | long n => rfl
  | float bits => rfl
  | complex re im => rfl
  | bytes bs => rfl
  | string ps => rfl
  | frozenset hs => rfl
  termination_by hsize h
  decreasing_by all_goals (subst_vars; simp only [hsize, hsizeList]; omega)

theorem tryHashableList_toObj (hs : List HObj) (hc : canonHList hs = true) :
    Obj.tryHashableList (HObj.toObjList hs) = .ok hs := by
  cases hs with
  | nil => rfl
  | cons h tl =>
      simp only [canonHList, Bool.and_eq_true] at hc
      simp only [HObj.toObjList, Obj.tryHashableList, tryHashable_toObj h hc.1,
        tryHashableList_toObj tl hc.2]
  termination_by hsizeList hs
  decreasing_by all_goals (subst_vars; simp only [hsize, hsizeList]; omega)

end

mutual

theorem canonObj_toObj (h : HObj) (hc : canonHObj h = true) :
    canonObj (HObj.toObj h) = true := by
  cases h with
  | tuple hs =>
      simp only [canonHObj, Bool.and_eq_true] at hc
      simp only [HObj.toObj, canonObj, Bool.and_eq_true, toObjList_length]
      exact ⟨hc.1, canonList_toObjList hs hc.2⟩
  | loadRef i => simp [canonHObj] at hc
  | storeRef i => simp [canonHObj] at hc
  | stopIteration => simp [canonHObj] at hc
  | none => exact hc
  | ellipsis => exact hc
  | bool b => exact hc
  | long n => exact hc
  | float bits => exact hc
  | complex re im => exact hc
  | bytes bs => exact hc
  | string ps => exact hc
  | frozenset hs => exact hc
  termination_by hsize h
  decreasing_by all_goals (subst_vars; simp only [hsize, hsizeList]; omega)

theorem canonList_toObjList (hs : List HObj) (hc : canonHList hs = true) :
    canonList (HObj.toObjList hs) = true := by
  cases hs with
  | nil => rfl
  | cons h tl =>
      simp only [canonHList, Bool.and_eq_true] at hc
      simp only [HObj.toObjList, canonList, Bool.and_eq_true]
      exact ⟨canonObj_toObj h hc.1, canonList_toObjList tl hc.2⟩
  termination_by hsizeList hs
  decreasing_by all_goals (subst_vars; simp only [hsize, hsizeList]; omega)

end

mutual

theorem rCost_toObj (h : HObj) : rCost (HObj.toObj h) = hCost h := by
  cases h with
  | tuple hs => simp only [HObj.toObj, rCost, hCost, vCost_toObjList hs]
  | none => rfl
  | stopIteration => rfl
  | ellipsis => rfl
  | bool b => rfl
  | long n => rfl
  | float bits => rfl
  | complex re im => rfl
  | bytes bs => rfl
  | string ps => rfl
  | frozenset hs => rfl
  | loadRef i => rfl
  | storeRef i => rfl
  termination_by hsize h
  decreasing_by all_goals (subst_vars; simp only [hsize, hsizeList]; omega)

theorem vCost_toObjList (hs : List HObj) : vCost (HObj.toObjList hs) = hvCost hs := by
  cases hs with
  | nil => rfl
  | cons h tl =>
      simp only [HObj.toObjList, vCost, hvCost, rCost_toObj h, vCost_toObjList tl]
  termination_by hsizeList hs
  decreasing_by all_goals (subst_vars; simp only [hsize, hsizeList]; omega)

end

mutual

theorem osize_toObj (h : HObj) : osize (HObj.toObj h) = hsize h := by
  cases h with
  | tuple hs => simp only [HObj.toObj, osize, hsize, osizeList_toObjList hs]
  | none => rfl
  | stopIteration => rfl
  | ellipsis => rfl
  | bool b => rfl
  | long n => rfl
  | float bits => rfl
  | complex re im => rfl
  | bytes bs => rfl
  | string ps => rfl
  | frozenset hs => rfl
  | loadRef i => rfl
  | storeRef i => rfl
  termination_by hsize h
  decreasing_by all_goals (subst_vars; simp only [hsize, hsizeList]; omega)

theorem osizeList_toObjList (hs : List HObj) :
    osizeList (HObj.toObjList hs) = hsizeList hs := by
  cases hs with
  | nil => rfl
  | cons h tl =>
      simp only [HObj.toObjList, osizeList, hsizeList, osize_toObj h, osizeList_toObjList tl]
  termination_by hsizeList hs
  decreasing_by all_goals (subst_vars; simp only [hsize, hsizeList]; omega)

end

mutual

theorem fromRef_toObj (h : HObj) (fuel : Nat) (refs : List Obj)
    (hc : canonHObj h = true) (hf : fCost h ≤ fuel) :
    Obj.fromRef fuel (HObj.toObj h) refs = .ok h := by
  obtain ⟨f, rfl⟩ : ∃ f, fuel = f + 1 := ⟨fuel - 1, by have := fCost_pos h; omega⟩
  cases h with
  | tuple hs =>
      have hc' : canonHList hs = true := by
        simp only [canonHObj, Bool.and_eq_true] at hc; exact hc.2
      have hf' : fvCost hs ≤ f := by simp only [fCost] at hf; omega
      simp only [HObj.toObj, Obj.fromRef, fromRefList_toObj hs f refs hc' hf']
  | loadRef i => simp [canonHObj] at hc
  | storeRef i => simp [canonHObj] at hc
  | stopIteration => simp [canonHObj] at hc
  | none => rfl
  | ellipsis => rfl
  | bool b => rfl
  | long n => rfl
  | float bits => rfl
  | complex re im => rfl
  | bytes bs => rfl
  | string ps => rfl
  | frozenset hs => rfl
  termination_by hsize h
  decreasing_by all_goals (subst_vars; simp only [hsize, hsizeList]; omega)

theorem fromRefList_toObj (hs : List HObj) (fuel : Nat) (refs : List Obj)
    (hc : canonHList hs = true) (hf : fvCost hs ≤ fuel) :
    Obj.fromRefList fuel (HObj.toObjList hs) refs = .ok hs := by
  obtain ⟨f, rfl⟩ : ∃ f, fuel = f + 1 := ⟨fuel - 1, by have := fvCost_pos hs; omega⟩
  cases hs with
  | nil => rfl
  | cons h tl =>
      simp only [canonHList, Bool.and_eq_true] at hc
      simp only [fvCost] at hf
      simp only [HObj.toObjList, Obj.fromRefList,
        fromRef_toObj h f refs hc.1 (by omega),
        fromRefList_toObj tl f refs hc.2 (by omega)]
  termination_by hsizeList hs
  decreasing_by all_goals (subst_vars; simp only [hsize, hsizeList]; omega)

end

theorem hconvert_toObjList (hs : List HObj) : ∀ (fuel : Nat) (refs : List Obj),
    canonHList hs = true → cvCost hs ≤ fuel →
    hconvertElems fuel (HObj.toObjList hs) refs = .ok hs := by
  induction hs with
  | nil =>
      intro fuel refs _ hf
      obtain ⟨f, rfl⟩ : ∃ f, fuel = f + 1 := ⟨fuel - 1, by simp [cvCost] at hf; omega⟩
      rfl
  | cons h tl ih =>
      intro fuel refs hc hf
      obtain ⟨f, rfl⟩ : ∃ f, fuel = f + 1 := ⟨fuel - 1, by have := cvCost_pos (h :: tl); omega⟩
      simp only [canonHList, Bool.and_eq_true] at hc
      simp only [cvCost] at hf
      simp only [HObj.toObjList, hconvertElems,
        fromRef_toObj h f refs hc.1 (by omega),
        ih f refs hc.2 (by omega)]

/-! ### IndexSet / IndexMap insertion on fresh data -/

theorem foldl_hsetInsert (xs : List HObj) : ∀ acc, hdistinct acc xs = true →
    List.foldl hsetInsert acc xs = acc ++ xs := by
  induction xs with
  | nil => intro acc _; simp
  | cons h tl ih =>
      intro acc hd
      simp only [hdistinct, Bool.and_eq_true] at hd
      obtain ⟨h1, h2⟩ := hd
      have hne : acc.any (fun y => y.beq h) = false := by
        rw [List.any_eq_false]
        intro y hy
        simpa using (List.all_eq_true.mp h1) y hy
      rw [List.foldl_cons]
      rw [show hsetInsert acc h = acc ++ [h] from by rw [hsetInsert, hne]; rfl]
      rw [ih (acc ++ [h]) h2, List.append_assoc, List.singleton_append]

theorem hsetOfList_distinct (xs : List HObj) (hd : hdistinct [] xs = true) :
    hsetOfList xs = xs := by
  simpa using foldl_hsetInsert xs [] hd

theorem dictInsert_fresh (acc : List (HObj × Obj)) (k : HObj) (v : Obj)
    (hf : keysFresh acc k = true) : dictInsert acc k v = acc ++ [(k, v)] := by
  have hne : acc.any (fun e => e.1.beq k) = false := by
    rw [List.any_eq_false]
    intro e he
    simpa using (List.all_eq_true.mp hf) e he
  rw [dictInsert, hne]
  rfl

/-! ### The `w_PyLong` digit loop -/

theorem pyLongDigitsAux_le (fuel : Nat) : ∀ n, ∀ d ∈ pyLongDigitsAux fuel n, d ≤ 32767 := by
  induction fuel with
  | zero => intro n d hd; simp [pyLongDigitsAux] at hd
  | succ fuel ih =>
      intro n d hd
      by_cases h : n = 0
      · simp [pyLongDigitsAux, h] at hd
      · simp only [pyLongDigitsAux, if_neg h, List.mem_cons] at hd
        rcases hd with h1 | h1
        · exact h1 ▸ Nat.and_le_right
        · exact ih (n >>> 15) d h1

theorem pyLongDigits_le (n : Nat) : ∀ d ∈ pyLongDigits n, d ≤ 32768 := by
  intro d hd
  have := pyLongDigitsAux_le n n d hd
  omega

theorem pyLongDigitsAux_val (fuel : Nat) : ∀ n, n ≤ fuel →
    longDigitsVal (pyLongDigitsAux fuel n) = n := by
  induction fuel with
  | zero =>
      intro n hn
      have : n = 0 := by omega
      subst this; rfl
  | succ fuel ih =>
      intro n hn
      by_cases h : n = 0
      · subst h; rfl
      · have hlt : n >>> 15 < n := by
          rw [Nat.shiftRight_eq_div_pow]
          exact Nat.div_lt_self (Nat.pos_of_ne_zero h) (by norm_num)
        simp only [pyLongDigitsAux, if_neg h, longDigitsVal, ih (n >>> 15) (by omega)]
        have hOr : ∀ a b : Nat, Nat.lor a b = a ||| b := fun _ _ => rfl
        have hAnd : ∀ a b : Nat, Nat.land a b = a &&& b := fun _ _ => rfl
        rw [hOr, hAnd]
        apply Nat.eq_of_testBit_eq
        intro i
        simp only [Nat.testBit_or, Nat.testBit_and, Nat.testBit_shiftLeft,
          Nat.testBit_shiftRight]
        rw [show (0x7FFF : Nat) = 2 ^ 15 - 1 from by norm_num, Nat.testBit_two_pow_sub_one]
        by_cases hi : 15 ≤ i
        · rw [show 15 + (i - 15) = i from by omega]
          simp [hi, show ¬(i < 15) from by omega]
        · simp [hi, show i < 15 from by omega]

theorem longDigitsVal_pyLongDigits (n : Nat) : longDigitsVal (pyLongDigits n) = n :=
  pyLongDigitsAux_val n n (Nat.le_refl n)

theorem pyLongDigits_pos (n : Nat) (h : n ≠ 0) : 0 < (pyLongDigits n).length := by
  obtain ⟨k, rfl⟩ := Nat.exists_eq_succ_of_ne_zero h
  simp [pyLongDigits, pyLongDigitsAux]

theorem flatMap_wU16 (ds : List Nat) : ds.flatMap (fun d => wU16 d) = digitBytes ds := by
  induction ds with
  | nil => rfl
  | cons d tl ih =>
      simp only [digitBytes, List.flatMap_cons] at ih ⊢
      rw [ih]
      congr 1
      simp only [wU16, leBytes, List.cons.injEq, and_true]
      exact ⟨by omega, by omega⟩

/-! ### One-tag reader steps (unflagged tags, payload reads as hypotheses) -/

theorem rStep_null (f : Nat) (v : PyVersion) (rest : List Nat) (refs : List Obj) :
    rObject (f + 1) v (48 :: rest) refs = .ok (Option.none, rest, refs) := rfl

theorem rStep_none (f : Nat) (v : PyVersion) (rest : List Nat) (refs : List Obj) :
    rObject (f + 1) v (78 :: rest) refs = .ok (Option.some Obj.none, rest, refs) := rfl

theorem rStep_ellipsis (f : Nat) (v : PyVersion) (rest : List Nat) (refs : List Obj) :
    rObject (f + 1) v (46 :: rest) refs = .ok (Option.some Obj.ellipsis, rest, refs) := rfl

theorem rStep_false (f : Nat) (v : PyVersion) (rest : List Nat) (refs : List Obj) :
    rObject (f + 1) v (70 :: rest) refs
      = .ok (Option.some (Obj.bool false), rest, refs) := rfl

theorem rStep_true (f : Nat) (v : PyVersion) (rest : List Nat) (refs : List Obj) :
    rObject (f + 1) v (84 :: rest) refs
      = .ok (Option.some (Obj.bool true), rest, refs) := rfl

theorem rStep_int (f : Nat) (v : PyVersion) (pl : List Nat) (refs : List Obj) (x : Int)
    (rest : List Nat) (hp : rLong pl = .ok (x, rest)) :
    rObject (f + 1) v (105 :: pl) refs = .ok (Option.some (Obj.long x), rest, refs) := by
  rw [rObject]
  simp only [rU8, Res.bind_ok, Nat.reduceMod]
  rw [show Nat.land 105 128 = 0 from by decide]
  rw [show Nat.land 105 127 = 105 from by decide]
  simp only [Kind.fromByte, reduceIte, bne_self_eq_false, Kind.reservesSlot]
  simp only [Bool.false_eq_true, false_and, if_false]
  rw [hp]
  simp only [Res.bind_ok]
  rfl

theorem rStep_long (f : Nat) (v : PyVersion) (pl pl2 : List Nat) (refs : List Obj)
    (n : Int) (value : Nat) (rest : List Nat)
    (h1 : rLong pl = .ok (n, pl2))
    (h2 : rLongDigits (usizeOfInt (wrappingAbsI32 n)) 0 0 pl2 = .ok (value, rest)) :
    rObject (f + 1) v (108 :: pl) refs
      = .ok (Option.some (Obj.long (if n < 0 then -(value : Int) else (value : Int))),
          rest, refs) := by
  rw [rObject]
  simp only [rU8, Res.bind_ok, Nat.reduceMod]
  rw [show Nat.land 108 128 = 0 from by decide]
  rw [show Nat.land 108 127 = 108 from by decide]
  simp only [Kind.fromByte, reduceIte, bne_self_eq_false, Kind.reservesSlot]
  simp only [Bool.false_eq_true, false_and, if_false]
  rw [h1]
  simp only [Res.bind_ok]
  rw [h2]
  simp only [Res.bind_ok]
  rfl

theorem rStep_bfloat (f : Nat) (v : PyVersion) (pl : List Nat) (refs : List Obj)
    (bits : Nat) (rest : List Nat) (hp : rFloatBin pl = .ok (bits, rest)) :
    rObject (f + 1) v (103 :: pl) refs
      = .ok (Option.some (Obj.float bits), rest, refs) := by
  rw [rObject]
  simp only [rU8, Res.bind_ok, Nat.reduceMod]
  rw [show Nat.land 103 128 = 0 from by decide]
  rw [show Nat.land 103 127 = 103 from by decide]
  simp only [Kind.fromByte, reduceIte, bne_self_eq_false, Kind.reservesSlot]
  simp only [Bool.false_eq_true, false_and, if_false]
  rw [hp]
  simp only [Res.bind_ok]
  rfl

theorem rStep_bcomplex (f : Nat) (v : PyVersion) (pl pl2 : List Nat) (refs : List Obj)
    (re im : Nat) (rest : List Nat)
    (h1 : rFloatBin pl = .ok (re, pl2)) (h2 : rFloatBin pl2 = .ok (im, rest)) :
    rObject (f + 1) v (121 :: pl) refs
      = .ok (Option.some (Obj.complex re im), rest, refs) := by
  rw [rObject]
  simp only [rU8, Res.bind_ok, Nat.reduceMod]
  rw [show Nat.land 121 128 = 0 from by decide]
  rw [show Nat.land 121 127 = 121 from by decide]
  simp only [Kind.fromByte, reduceIte, bne_self_eq_false, Kind.reservesSlot]
  simp only [Bool.false_eq_true, false_and, if_false]
  rw [h1]
  simp only [Res.bind_ok]
  rw [h2]
  simp only [Res.bind_ok]
  rfl

theorem rStep_bytes (f : Nat) (v : PyVersion) (pl pl2 : List Nat) (refs : List Obj)
    (len : Int) (bs rest : List Nat)
    (h1 : rLong pl = .ok (len, pl2))
    (h2 : rBytesN (usizeOfInt len) pl2 = .ok (bs, rest)) :
    rObject (f + 1) v (115 :: pl) refs
      = .ok (Option.some (Obj.bytes bs), rest, refs) := by
  rw [rObject]
  simp only [rU8, Res.bind_ok, Nat.reduceMod]
  rw [show Nat.land 115 128 = 0 from by decide]
  rw [show Nat.land 115 127 = 115 from by decide]
  simp only [Kind.fromByte, reduceIte, bne_self_eq_false, Kind.reservesSlot]
  simp only [Bool.false_eq_true, false_and, if_false]
  rw [h1]
  simp only [Res.bind_ok]
  rw [h2]
  simp only [Res.bind_ok]
  rfl

theorem rStep_ascii (f : Nat) (v : PyVersion) (pl pl2 : List Nat) (refs : List Obj)
    (len : Int) (bs rest : List Nat)
    (h1 : rLong pl = .ok (len, pl2))
    (h2 : rBytesN (usizeOfInt len) pl2 = .ok (bs, rest)) :
    rObject (f + 1) v (97 :: pl) refs
      = .ok (Option.some (Obj.string ⟨bs, Kind.ascii⟩), rest, refs) := by
  rw [rObject]
  simp only [rU8, Res.bind_ok, Nat.reduceMod]
  rw [show Nat.land 97 128 = 0 from by decide]
  rw [show Nat.land 97 127 = 97 from by decide]
  simp only [Kind.fromByte, reduceIte, bne_self_eq_false, Kind.reservesSlot]
  simp only [Bool.false_eq_true, false_and, if_false]
  rw [h1]
  simp only [Res.bind_ok]
  rw [h2]
  simp only [Res.bind_ok]
  rfl

theorem rStep_asciiInterned (f : Nat) (v : PyVersion) (pl pl2 : List Nat) (refs : List Obj)
    (len : Int) (bs rest : List Nat)
    (h1 : rLong pl = .ok (len, pl2))
    (h2 : rBytesN (usizeOfInt len) pl2 = .ok (bs, rest)) :
    rObject (f + 1) v (65 :: pl) refs
      = .ok (Option.some (Obj.string ⟨bs, Kind.asciiInterned⟩), rest, refs) := by
  rw [rObject]
  simp only [rU8, Res.bind_ok, Nat.reduceMod]
  rw [show Nat.land 65 128 = 0 from by decide]
  rw [show Nat.land 65 127 = 65 from by decide]
  simp only [Kind.fromByte, reduceIte, bne_self_eq_false, Kind.reservesSlot]
  simp only [Bool.false_eq_true, false_and, if_false]
  rw [h1]
  simp only [Res.bind_ok]
  rw [h2]
  simp only [Res.bind_ok]
  rfl

theorem rStep_interned (f : Nat) (v : PyVersion) (pl pl2 : List Nat) (refs : List Obj)
    (len : Int) (bs rest : List Nat)
    (h1 : rLong pl = .ok (len, pl2))
    (h2 : rBytesN (usizeOfInt len) pl2 = .ok (bs, rest)) :
    rObject (f + 1) v (116 :: pl) refs
      = .ok (Option.some (Obj.string ⟨bs, Kind.interned⟩), rest, refs) := by
  rw [rObject]
  simp only [rU8, Res.bind_ok, Nat.reduceMod]
  rw [show Nat.land 116 128 = 0 from by decide]
  rw [show Nat.land 116 127 = 116 from by decide]
  simp only [Kind.fromByte, reduceIte, bne_self_eq_false, Kind.reservesSlot]
  simp only [Bool.false_eq_true, false_and, if_false]
  rw [h1]
  simp only [Res.bind_ok]
  rw [h2]
  simp only [Res.bind_ok]
  rfl

theorem rStep_unicode (f : Nat) (v : PyVersion) (pl pl2 : List Nat) (refs : List Obj)
    (len : Int) (bs rest : List Nat)
    (h1 : rLong pl = .ok (len, pl2))
    (h2 : rBytesN (usizeOfInt len) pl2 = .ok (bs, rest)) :
    rObject (f + 1) v (117 :: pl) refs
      = .ok (Option.some (Obj.string ⟨bs, Kind.unicode⟩), rest, refs) := by
  rw [rObject]
  simp only [rU8, Res.bind_ok, Nat.reduceMod]
  rw [show Nat.land 117 128 = 0 from by decide]
  rw [show Nat.land 117 127 = 117 from by decide]
  simp only [Kind.fromByte, reduceIte, bne_self_eq_false, Kind.reservesSlot]
  simp only [Bool.false_eq_true, false_and, if_false]
  rw [h1]
  simp only [Res.bind_ok]
  rw [h2]
  simp only [Res.bind_ok]
  rfl

theorem rStep_shortAscii (f : Nat) (v : PyVersion) (pl pl2 : List Nat) (refs : List Obj)
    (len : Nat) (bs rest : List Nat)
    (h1 : rU8 pl = .ok (len, pl2))
    (h2 : rBytesN len pl2 = .ok (bs, rest)) :
    rObject (f + 1) v (122 :: pl) refs
      = .ok (Option.some (Obj.string ⟨bs, Kind.shortAscii⟩), rest, refs) := by
  rw [rObject]
  rw [show rU8 (122 :: pl) = .ok (122 % 256, pl) from rfl]
  simp only [Res.bind_ok, Nat.reduceMod]
  rw [show Nat.land 122 128 = 0 from by decide]
  rw [show Nat.land 122 127 = 122 from by decide]
  simp only [Kind.fromByte, reduceIte, bne_self_eq_false, Kind.reservesSlot]
  simp only [Bool.false_eq_true, false_and, if_false]
  rw [h1]
  simp only [Res.bind_ok]
  rw [h2]
  simp only [Res.bind_ok]
  rfl

theorem rStep_shortAsciiInterned (f : Nat) (v : PyVersion) (pl pl2 : List Nat)
    (refs : List Obj) (len : Nat) (bs rest : List Nat)
    (h1 : rU8 pl = .ok (len, pl2))
    (h2 : rBytesN len pl2 = .ok (bs, rest)) :
    rObject (f + 1) v (90 :: pl) refs
      = .ok (Option.some (Obj.string ⟨bs, Kind.shortAsciiInterned⟩), rest, refs) := by
  rw [rObject]
  rw [show rU8 (90 :: pl) = .ok (90 % 256, pl) from rfl]
  simp only [Res.bind_ok, Nat.reduceMod]
  rw [show Nat.land 90 128 = 0 from by decide]
  rw [show Nat.land 90 127 = 90 from by decide]
  simp only [Kind.fromByte, reduceIte, bne_self_eq_false, Kind.reservesSlot]
  simp only [Bool.false_eq_true, false_and, if_false]
  rw [h1]
  simp only [Res.bind_ok]
  rw [h2]
  simp only [Res.bind_ok]
  rfl

theorem rStep_tuple (f : Nat) (v : PyVersion) (pl pl2 : List Nat) (refs refs2 : List Obj)
    (len : Int) (xs : List Obj) (rest : List Nat)
    (h1 : rLong pl = .ok (len, pl2))
    (h2 : rVec f v (usizeOfInt len) Kind.tuple pl2 refs = .ok (xs, rest, refs2)) :
    rObject (f + 1) v (40 :: pl) refs
      = .ok (Option.some (Obj.tuple xs), rest, refs2) := by
  rw [rObject]
  simp only [rU8, Res.bind_ok, Nat.reduceMod]
  rw [show Nat.land 40 128 = 0 from by decide]
  rw [show Nat.land 40 127 = 40 from by decide]
  simp only [Kind.fromByte, reduceIte, bne_self_eq_false, Kind.reservesSlot]
  simp only [Bool.false_eq_true, and_false, false_and, if_false]
  rw [h1]
  simp only [Res.bind_ok]
  rw [h2]
  simp only [Res.bind_ok]
  rfl

theorem rStep_smallTuple (f : Nat) (v : PyVersion) (pl pl2 : List Nat)
    (refs refs2 : List Obj) (len : Nat) (xs : List Obj) (rest : List Nat)
    (h1 : rU8 pl = .ok (len, pl2))
    (h2 : rVec f v len Kind.tuple pl2 refs = .ok (xs, rest, refs2)) :
    rObject (f + 1) v (41 :: pl) refs
      = .ok (Option.some (Obj.tuple xs), rest, refs2) := by
  rw [rObject]
  rw [show rU8 (41 :: pl) = .ok (41 % 256, pl) from rfl]
  simp only [Res.bind_ok, Nat.reduceMod]
  rw [show Nat.land 41 128 = 0 from by decide]
  rw [show Nat.land 41 127 = 41 from by decide]
  simp only [Kind.fromByte, reduceIte, bne_self_eq_false, Kind.reservesSlot]
  simp only [Bool.false_eq_true, and_false, false_and, if_false]
  rw [h1]
  simp only [Res.bind_ok]
  rw [h2]
  simp only [Res.bind_ok]
  rfl

theorem rStep_list (f : Nat) (v : PyVersion) (pl pl2 : List Nat) (refs refs2 : List Obj)
    (len : Int) (xs : List Obj) (rest : List Nat)
    (h1 : rLong pl = .ok (len, pl2))
    (h2 : rVec f v (usizeOfInt len) Kind.list pl2 refs = .ok (xs, rest, refs2)) :
    rObject (f + 1) v (91 :: pl) refs
      = .ok (Option.some (Obj.list xs), rest, refs2) := by
  rw [rObject]
  simp only [rU8, Res.bind_ok, Nat.reduceMod]
  rw [show Nat.land 91 128 = 0 from by decide]
  rw [show Nat.land 91 127 = 91 from by decide]
  simp only [Kind.fromByte, reduceIte, bne_self_eq_false, Kind.reservesSlot]
  simp only [Bool.false_eq_true, and_false, false_and, if_false]
  rw [h1]
  simp only [Res.bind_ok]
  rw [h2]
  simp only [Res.bind_ok]
  rfl

theorem rStep_dict (f : Nat) (v : PyVersion) (pl : List Nat) (refs refs2 : List Obj)
    (es : List (HObj × Obj)) (rest : List Nat)
    (h1 : rHashmap f v pl refs [] = .ok (es, rest, refs2)) :
    rObject (f + 1) v (123 :: pl) refs
      = .ok (Option.some (Obj.dict es), rest, refs2) := by
  rw [rObject]
  simp only [rU8, Res.bind_ok, Nat.reduceMod]
  rw [show Nat.land 123 128 = 0 from by decide]
  rw [show Nat.land 123 127 = 123 from by decide]
  simp only [Kind.fromByte, reduceIte, bne_self_eq_false, Kind.reservesSlot]
  simp only [Bool.false_eq_true, and_false, false_and, if_false]
  rw [h1]
  simp only [Res.bind_ok]
  rfl

theorem rStep_set (f : Nat) (v : PyVersion) (pl pl2 : List Nat) (refs refs2 : List Obj)
    (len : Int) (xs : List Obj) (hs : List HObj) (rest : List Nat)
    (h1 : rLong pl = .ok (len, pl2))
    (h2 : rVec f v (usizeOfInt len) Kind.set pl2 refs = .ok (xs, rest, refs2))
    (h3 : hconvertElems f xs refs2 = .ok hs) :
    rObject (f + 1) v (60 :: pl) refs
      = .ok (Option.some (Obj.set (hsetOfList hs)), rest, refs2) := by
  rw [rObject]
  simp only [rU8, Res.bind_ok, Nat.reduceMod]
  rw [show Nat.land 60 128 = 0 from by decide]
  rw [show Nat.land 60 127 = 60 from by decide]
  simp only [Kind.fromByte, reduceIte, bne_self_eq_false, Kind.reservesSlot]
  simp only [Bool.false_eq_true, and_false, false_and, if_false]
  rw [h1]
  simp only [Res.bind_ok]
  rw [h2]
  simp only [Res.bind_ok]
  rw [h3]
  simp only [Res.bind_ok]
  rfl

theorem rStep_frozenset (f : Nat) (v : PyVersion) (pl pl2 : List Nat)
    (refs refs2 : List Obj) (len : Int) (xs : List Obj) (hs : List HObj) (rest : List Nat)
    (h1 : rLong pl = .ok (len, pl2))
    (h2 : rVec f v (usizeOfInt len) Kind.frozenset pl2 refs = .ok (xs, rest, refs2))
    (h3 : hconvertElems f xs refs2 = .ok hs) :
    rObject (f + 1) v (62 :: pl) refs
      = .ok (Option.some (Obj.frozenset (hsetOfList hs)), rest, refs2) := by
  rw [rObject]
  simp only [rU8, Res.bind_ok, Nat.reduceMod]
  rw [show Nat.land 62 128 = 0 from by decide]
  rw [show Nat.land 62 127 = 62 from by decide]
  simp only [Kind.fromByte, reduceIte, bne_self_eq_false, Kind.reservesSlot]
  simp only [Bool.false_eq_true, and_false, false_and, if_false]
  rw [h1]
  simp only [Res.bind_ok]
  rw [h2]
  simp only [Res.bind_ok]
  rw [h3]
  simp only [Res.bind_ok]
  rfl

/-! ### Decode-after-encode: the writer's output parses back to its input -/

theorem rVec_step (g : Nat) (v : PyVersion) (m : Nat) (k : Kind) (input rb rest : List Nat)
    (refs refs2 refs3 : List Obj) (x : Obj) (tl : List Obj)
    (h1 : rObject g v input refs = .ok (Option.some x, rb, refs2))
    (h2 : rVec g v m k rb refs2 = .ok (tl, rest, refs3)) :
    rVec (g + 1) v (m + 1) k input refs = .ok (x :: tl, rest, refs3) := by
  cases k <;> simp only [rVec, h1, h2]

theorem rHashmap_stop (g : Nat) (v : PyVersion) (input rest : List Nat)
    (refs refs2 : List Obj) (acc : List (HObj × Obj))
    (h1 : rObject g v input refs = .ok (Option.none, rest, refs2)) :
    rHashmap (g + 1) v input refs acc = .ok (acc, rest, refs2) := by
  simp only [rHashmap, h1]

theorem rHashmap_step (g : Nat) (v : PyVersion) (input input2 input3 rest : List Nat)
    (refs refs2 refs3 refs4 : List Obj) (key value : Obj) (hk : HObj)
    (acc es : List (HObj × Obj))
    (h1 : rObject g v input refs = .ok (Option.some key, input2, refs2))
    (h2 : rObject g v input2 refs2 = .ok (Option.some value, input3, refs3))
    (h3 : key.tryHashable = .ok hk)
    (h4 : rHashmap g v input3 refs3 (dictInsert acc hk value) = .ok (es, rest, refs4)) :
    rHashmap (g + 1) v input refs acc = .ok (es, rest, refs4) := by
  simp only [rHashmap, h1, h2, h3, h4]

/-- The four decode-after-encode statements, proved simultaneously by strong
induction on the structural size of the value being written. -/
theorem parseMain (n : Nat) :
    (∀ (o : Obj) (wrefs : List Obj) (mv wf d : Nat) (bs : List Nat)
       (fuel : Nat) (v : PyVersion) (rest : List Nat) (refs : List Obj),
       osize o ≤ n → canonObj o = true → 2 ≤ mv → rCost o ≤ fuel →
       wObject wrefs mv wf d (Option.some o) false = .ok bs →
       rObject fuel v (bs ++ rest) refs = .ok (Option.some o, rest, refs))
    ∧ (∀ (xs : List Obj) (wrefs : List Obj) (mv wf d : Nat) (bs : List Nat)
       (fuel : Nat) (v : PyVersion) (rest : List Nat) (refs : List Obj),
       osizeList xs ≤ n → canonList xs = true → 2 ≤ mv → vCost xs ≤ fuel →
       wObjList wrefs mv wf d xs = .ok bs → ∀ k : Kind,
       rVec fuel v xs.length k (bs ++ rest) refs = .ok (xs, rest, refs))
    ∧ (∀ (hs : List HObj) (wrefs : List Obj) (mv wf d : Nat) (bs : List Nat)
       (fuel : Nat) (v : PyVersion) (rest : List Nat) (refs : List Obj),
       hsizeList hs ≤ n → canonHList hs = true → 2 ≤ mv → hvCost hs ≤ fuel →
       wHObjList wrefs mv wf d hs = .ok bs → ∀ k : Kind,
       rVec fuel v hs.length k (bs ++ rest) refs
         = .ok (HObj.toObjList hs, rest, refs))
    ∧ (∀ (es acc : List (HObj × Obj)) (wrefs : List Obj) (mv wf d : Nat) (bs : List Nat)
       (fuel : Nat) (v : PyVersion) (rest : List Nat) (refs : List Obj),
       dsize es ≤ n → canonDict acc es = true → 2 ≤ mv → dCost es ≤ fuel →
       wDictEntries wrefs mv wf d es = .ok bs →
       rHashmap fuel v (bs ++ 48 :: rest) refs acc = .ok (acc ++ es, rest, refs)) := by
  induction n using Nat.strong_induction_on with
  | _ n IH =>
  refine ⟨?_, ?_, ?_, ?_⟩
  · intro o wrefs mv wf d bs fuel v rest refs hsz hc hmv hfu hw
    obtain ⟨f, rfl⟩ : ∃ f, fuel = f + 1 := ⟨fuel - 1, by have := rCost_pos o; omega⟩
    cases o with
    | none =>
        cases wf with
        | zero => exact absurd hw (by simp [wObject])
        | succ wf' =>
          rw [wObject] at hw
          split at hw
          · exact Res.noConfusion hw
          · cases hw
            rw [show wKind Kind.noneKind false = [(78 : Nat)] from rfl]
            simp only [List.cons_append, List.nil_append]
            exact rStep_none f v rest refs
    | ellipsis =>
        cases wf with
        | zero => exact absurd hw (by simp [wObject])
        | succ wf' =>
          rw [wObject] at hw
          split at hw
          · exact Res.noConfusion hw
          · cases hw
            rw [show wKind Kind.ellipsis false = [(46 : Nat)] from rfl]
            simp only [List.cons_append, List.nil_append]
            exact rStep_ellipsis f v rest refs
    | bool b =>
        cases wf with
        | zero => exact absurd hw (by simp [wObject])
        | succ wf' =>
          rw [wObject] at hw
          split at hw
          · exact Res.noConfusion hw
          · cases hw
            cases b with
            | false =>
                rw [show wKind (if false then Kind.trueKind else Kind.falseKind) false
                  = [(70 : Nat)] from rfl]
                simp only [List.cons_append, List.nil_append]
                exact rStep_false f v rest refs
            | true =>
                rw [show wKind (if true then Kind.trueKind else Kind.falseKind) false
                  = [(84 : Nat)] from rfl]
                simp only [List.cons_append, List.nil_append]
                exact rStep_true f v rest refs
    | long num =>
        have hclen : (pyLongDigits num.natAbs).length < 2 ^ 31 := by
          simpa [canonObj] using hc
        cases wf with
        | zero => exact absurd hw (by simp [wObject])
        | succ wf' =>
          rw [wObject] at hw
          split at hw
          · exact Res.noConfusion hw
          · split at hw
            case isTrue hcond =>
              cases hw
              rw [show wKind Kind.int false = [(105 : Nat)] from rfl]
              simp only [List.cons_append, List.nil_append]
              exact rStep_int f v _ refs num rest (rLong_wLong num (by omega) (by omega) rest)
            case isFalse hcond =>
              cases hw
              rw [show wKind Kind.long false = [(108 : Nat)] from rfl]
              simp only [wPyLong, flatMap_wU16, List.cons_append, List.nil_append,
                List.append_assoc]
              by_cases hneg : num < 0
              · rw [if_pos hneg, mul_neg_one]
                have hlenpos : 0 < (pyLongDigits num.natAbs).length :=
                  pyLongDigits_pos _ (by omega)
                have h1 : rLong (wLong (-((pyLongDigits num.natAbs).length : Int)) ++
                    (digitBytes (pyLongDigits num.natAbs) ++ rest))
                    = .ok (-((pyLongDigits num.natAbs).length : Int),
                        digitBytes (pyLongDigits num.natAbs) ++ rest) :=
                  rLong_wLong _ (by omega) (by omega) _
                have husz : usizeOfInt (wrappingAbsI32
                    (-((pyLongDigits num.natAbs).length : Int)))
                    = (pyLongDigits num.natAbs).length := by
                  simp only [wrappingAbsI32, usizeOfInt]
                  split <;> omega
                have h2 : rLongDigits (usizeOfInt (wrappingAbsI32
                    (-((pyLongDigits num.natAbs).length : Int)))) 0 0
                    (digitBytes (pyLongDigits num.natAbs) ++ rest)
                    = .ok (num.natAbs, rest) := by
                  rw [husz]
                  have h0 := rLongDigits_ok (pyLongDigits num.natAbs)
                    (pyLongDigits_le num.natAbs) 0 0 rest
                  have hOr : ∀ b : Nat, Nat.lor 0 b = b := fun b => Nat.zero_or b
                  simpa [hOr, longDigitsVal_pyLongDigits] using h0
                rw [rStep_long f v _ _ refs _ num.natAbs rest h1 h2]
                have hval : (if -((pyLongDigits num.natAbs).length : Int) < 0
                    then -((num.natAbs : Nat) : Int) else ((num.natAbs : Nat) : Int))
                    = num := by
                  rw [if_pos (by omega)]
                  omega
                rw [hval]
              · rw [if_neg hneg, mul_one]
                have h1 : rLong (wLong (((pyLongDigits num.natAbs).length : Int)) ++
                    (digitBytes (pyLongDigits num.natAbs) ++ rest))
                    = .ok ((((pyLongDigits num.natAbs).length : Nat) : Int),
                        digitBytes (pyLongDigits num.natAbs) ++ rest) :=
                  rLong_wLong _ (by omega) (by omega) _
                have husz : usizeOfInt (wrappingAbsI32
                    ((((pyLongDigits num.natAbs).length : Nat) : Int)))
                    = (pyLongDigits num.natAbs).length := by
                  simp only [wrappingAbsI32, usizeOfInt]
                  split <;> omega
                have h2 : rLongDigits (usizeOfInt (wrappingAbsI32
                    ((((pyLongDigits num.natAbs).length : Nat) : Int)))) 0 0
                    (digitBytes (pyLongDigits num.natAbs) ++ rest)
                    = .ok (num.natAbs, rest) := by
                  rw [husz]
                  have h0 := rLongDigits_ok (pyLongDigits num.natAbs)
                    (pyLongDigits_le num.natAbs) 0 0 rest
                  have hOr : ∀ b : Nat, Nat.lor 0 b = b := fun b => Nat.zero_or b
                  simpa [hOr, longDigitsVal_pyLongDigits] using h0
                rw [rStep_long f v _ _ refs _ num.natAbs rest h1 h2]
                have hval : (if ((((pyLongDigits num.natAbs).length : Nat) : Int)) < 0
                    then -((num.natAbs : Nat) : Int) else ((num.natAbs : Nat) : Int))
                    = num := by
                  rw [if_neg (by omega)]
                  omega
                rw [hval]
    | float bits =>
        have hbits : bits < 2 ^ 64 := by simpa [canonObj] using hc
        cases wf with
        | zero => exact absurd hw (by simp [wObject])
        | succ wf' =>
          rw [wObject] at hw
          split at hw
          · exact Res.noConfusion hw
          · split at hw
            case isTrue hcond =>
              cases hw
              rw [show wKind Kind.binaryFloat false = [(103 : Nat)] from rfl]
              rw [Nat.mod_eq_of_lt hbits]
              simp only [List.cons_append, List.nil_append, List.append_assoc]
              have h1 := rFloatBin_leBytes bits rest
              rw [Nat.mod_eq_of_lt hbits] at h1
              exact rStep_bfloat f v _ refs bits rest h1
            case isFalse hcond => exact absurd hmv (by omega)
    | complex re im =>
        have hre : re < 2 ^ 64 ∧ im < 2 ^ 64 := by
          simpa [canonObj, Bool.and_eq_true, decide_eq_true_eq] using hc
        cases wf with
        | zero => exact absurd hw (by simp [wObject])
        | succ wf' =>
          rw [wObject] at hw
          split at hw
          · exact Res.noConfusion hw
          · split at hw
            case isTrue hcond =>
              cases hw
              rw [show wKind Kind.binaryComplex false = [(121 : Nat)] from rfl]
              rw [Nat.mod_eq_of_lt hre.1, Nat.mod_eq_of_lt hre.2]
              simp only [List.cons_append, List.nil_append, List.append_assoc]
              have h1 := rFloatBin_leBytes re (leBytes 8 im ++ rest)
              rw [Nat.mod_eq_of_lt hre.1] at h1
              have h2 := rFloatBin_leBytes im rest
              rw [Nat.mod_eq_of_lt hre.2] at h2
              exact rStep_bcomplex f v _ _ refs re im rest h1 h2
            case isFalse hcond => exact absurd hmv (by omega)
    | bytes bsv =>
        have hclen : bsv.length < 2 ^ 31 := by
          simp only [canonObj, Bool.and_eq_true, decide_eq_true_eq] at hc
          exact hc.1
        have hb256 : ∀ b ∈ bsv, b < 256 := by
          simp only [canonObj, Bool.and_eq_true, List.all_eq_true,
            decide_eq_true_eq] at hc
          exact fun b hb => hc.2 b hb
        cases wf with
        | zero => exact absurd hw (by simp [wObject])
        | succ wf' =>
          rw [wObject] at hw
          split at hw
          · exact Res.noConfusion hw
          · cases hw
            rw [show wKind Kind.string false = [(115 : Nat)] from rfl]
            rw [map_mod_id bsv hb256]
            simp only [List.cons_append, List.nil_append, List.append_assoc]
            refine rStep_bytes f v _ _ refs (bsv.length : Int) bsv rest
              (rLong_wLong _ (by omega) (by omega) _) ?_
            rw [usizeOfInt_natCast _ (by omega)]
            have h2 := rBytesN_exact bsv rest
            rw [map_mod_id bsv hb256] at h2
            exact h2
    | string ps =>
        obtain ⟨val, kind⟩ := ps
        have hv256 : val.all (fun b => decide (b < 256)) = true →
            ∀ b ∈ val, b < 256 := by
          intro hh b hb
          have := (List.all_eq_true.mp hh) b hb
          simpa using this
        cases kind with
        | ascii =>
            have hlen : val.length < 2 ^ 31 ∧ ∀ b ∈ val, b < 256 := by
              simp only [canonObj, canonStr, Bool.and_eq_true, decide_eq_true_eq] at hc
              exact ⟨hc.2, hv256 hc.1⟩
            cases wf with
            | zero => exact absurd hw (by simp [wObject])
            | succ wf' =>
              rw [wObject] at hw
              split at hw
              · exact Res.noConfusion hw
              · cases hw
                rw [show wKind Kind.ascii false = [(97 : Nat)] from rfl]
                rw [map_mod_id val hlen.2]
                simp only [List.cons_append, List.nil_append, List.append_assoc]
                refine rStep_ascii f v _ _ refs (val.length : Int) val rest
                  (rLong_wLong _ (by omega) (by omega) _) ?_
                rw [usizeOfInt_natCast _ (by omega)]
                have h2 := rBytesN_exact val rest
                rw [map_mod_id val hlen.2] at h2
                exact h2
        | asciiInterned =>
            have hlen : val.length < 2 ^ 31 ∧ ∀ b ∈ val, b < 256 := by
              simp only [canonObj, canonStr, Bool.and_eq_true, decide_eq_true_eq] at hc
              exact ⟨hc.2, hv256 hc.1⟩
            cases wf with
            | zero => exact absurd hw (by simp [wObject])
            | succ wf' =>
              rw [wObject] at hw
              split at hw
              · exact Res.noConfusion hw
              · cases hw
                rw [show wKind Kind.asciiInterned false = [(65 : Nat)] from rfl]
                rw [map_mod_id val hlen.2]
                simp only [List.cons_append, List.nil_append, List.append_assoc]
                refine rStep_asciiInterned f v _ _ refs (val.length : Int) val rest
                  (rLong_wLong _ (by omega) (by omega) _) ?_
                rw [usizeOfInt_natCast _ (by omega)]
                have h2 := rBytesN_exact val rest
                rw [map_mod_id val hlen.2] at h2
                exact h2
        | interned =>
            have hlen : val.length < 2 ^ 31 ∧ ∀ b ∈ val, b < 256 := by
              simp only [canonObj, canonStr, Bool.and_eq_true, decide_eq_true_eq] at hc
              exact ⟨hc.2, hv256 hc.1⟩
            cases wf with
            | zero => exact absurd hw (by simp [wObject])
            | succ wf' =>
              rw [wObject] at hw
              split at hw
              · exact Res.noConfusion hw
              · cases hw
                rw [show wKind Kind.interned false = [(116 : Nat)] from rfl]
                rw [map_mod_id val hlen.2]
                simp only [List.cons_append, List.nil_append, List.append_assoc]
                refine rStep_interned f v _ _ refs (val.length : Int) val rest
                  (rLong_wLong _ (by omega) (by omega) _) ?_
                rw [usizeOfInt_natCast _ (by omega)]
                have h2 := rBytesN_exact val rest
                rw [map_mod_id val hlen.2] at h2
                exact h2
        | unicode =>
            have hlen : val.length < 2 ^ 31 ∧ ∀ b ∈ val, b < 256 := by
              simp only [canonObj, canonStr, Bool.and_eq_true, decide_eq_true_eq] at hc
              exact ⟨hc.2, hv256 hc.1⟩
            cases wf with
            | zero => exact absurd hw (by simp [wObject])
            | succ wf' =>
              rw [wObject] at hw
              split at hw
              · exact Res.noConfusion hw
              · cases hw
                rw [show wKind Kind.unicode false = [(117 : Nat)] from rfl]
                rw [map_mod_id val hlen.2]
                simp only [List.cons_append, List.nil_append, List.append_assoc]
                refine rStep_unicode f v _ _ refs (val.length : Int) val rest
                  (rLong_wLong _ (by omega) (by omega) _) ?_
                rw [usizeOfInt_natCast _ (by omega)]
                have h2 := rBytesN_exact val rest
                rw [map_mod_id val hlen.2] at h2
                exact h2
        | shortAscii =>
            have hlen : val.length ≤ 255 ∧ ∀ b ∈ val, b < 256 := by
              simp only [canonObj, canonStr, Bool.and_eq_true, decide_eq_true_eq] at hc
              exact ⟨hc.2, hv256 hc.1⟩
            cases wf with
            | zero => exact absurd hw (by simp [wObject])
            | succ wf' =>
              rw [wObject] at hw
              split at hw
              · exact Res.noConfusion hw
              · cases hw
                rw [show wKind Kind.shortAscii false = [(122 : Nat)] from rfl]
                rw [map_mod_id val hlen.2]
                simp only [List.cons_append, List.nil_append, List.append_assoc]
                refine rStep_shortAscii f v _ _ refs val.length val rest
                  (rU8_wU8 _ hlen.1 _) ?_
                have h2 := rBytesN_exact val rest
                rw [map_mod_id val hlen.2] at h2
                exact h2
        | shortAsciiInterned =>
            have hlen : val.length ≤ 255 ∧ ∀ b ∈ val, b < 256 := by
              simp only [canonObj, canonStr, Bool.and_eq_true, decide_eq_true_eq] at hc
              exact ⟨hc.2, hv256 hc.1⟩
            cases wf with
            | zero => exact absurd hw (by simp [wObject])
            | succ wf' =>
              rw [wObject] at hw
              split at hw
              · exact Res.noConfusion hw
              · cases hw
                rw [show wKind Kind.shortAsciiInterned false = [(90 : Nat)] from rfl]
                rw [map_mod_id val hlen.2]
                simp only [List.cons_append, List.nil_append, List.append_assoc]
                refine rStep_shortAsciiInterned f v _ _ refs val.length val rest
                  (rU8_wU8 _ hlen.1 _) ?_
                have h2 := rBytesN_exact val rest
                rw [map_mod_id val hlen.2] at h2
                exact h2
        | nullKind => simp [canonObj, canonStr] at hc
        | noneKind => simp [canonObj, canonStr] at hc
        | falseKind => simp [canonObj, canonStr] at hc
        | trueKind => simp [canonObj, canonStr] at hc
        | stopIteration => simp [canonObj, canonStr] at hc
        | ellipsis => simp [canonObj, canonStr] at hc
        | int => simp [canonObj, canonStr] at hc
        | int64 => simp [canonObj, canonStr] at hc
        | float => simp [canonObj, canonStr] at hc
        | binaryFloat => simp [canonObj, canonStr] at hc
        | complex => simp [canonObj, canonStr] at hc
        | binaryComplex => simp [canonObj, canonStr] at hc
        | long => simp [canonObj, canonStr] at hc
        | string => simp [canonObj, canonStr] at hc
        | ref => simp [canonObj, canonStr] at hc
        | tuple => simp [canonObj, canonStr] at hc
        | list => simp [canonObj, canonStr] at hc
        | dict => simp [canonObj, canonStr] at hc
        | code => simp [canonObj, canonStr] at hc
        | unknown => simp [canonObj, canonStr] at hc
        | set => simp [canonObj, canonStr] at hc
        | frozenset => simp [canonObj, canonStr] at hc
        | smallTuple => simp [canonObj, canonStr] at hc
        | flagRef => simp [canonObj, canonStr] at hc
    | tuple xs =>
        have hcx : xs.length < 2 ^ 31 ∧ canonList xs = true := by
          simpa [canonObj, Bool.and_eq_true, decide_eq_true_eq] using hc
        have hfx : vCost xs ≤ f := by simp only [rCost] at hfu; omega
        cases wf with
        | zero => exact absurd hw (by simp [wObject])
        | succ wf' =>
          rw [wObject] at hw
          split at hw
          · exact Res.noConfusion hw
          · cases hb : wObjList wrefs mv wf' (d + 1) xs with
            | ok body =>
                rw [hb] at hw
                simp only [Res.bind_ok] at hw
                split at hw
                case isTrue hcond =>
                  cases hw
                  rw [show wKind Kind.smallTuple false = [(41 : Nat)] from rfl]
                  simp only [List.cons_append, List.nil_append, List.append_assoc]
                  exact rStep_smallTuple f v _ _ refs refs xs.length xs rest
                    (rU8_wU8 xs.length hcond.2 _)
                    ((IH (osizeList xs) (by simp only [osize] at hsz; omega)).2.1 xs wrefs
                      mv wf' (d + 1) body f v rest refs (Nat.le_refl _) hcx.2 hmv hfx hb
                      Kind.tuple)
                case isFalse hcond =>
                  cases hw
                  rw [show wKind Kind.tuple false = [(40 : Nat)] from rfl]
                  simp only [List.cons_append, List.nil_append, List.append_assoc]
                  refine rStep_tuple f v _ _ refs refs (xs.length : Int) xs rest
                    (rLong_wLong _ (by omega) (by omega) _) ?_
                  rw [usizeOfInt_natCast _ (by omega)]
                  exact (IH (osizeList xs) (by simp only [osize] at hsz; omega)).2.1 xs
                    wrefs mv wf' (d + 1) body f v rest refs (Nat.le_refl _) hcx.2 hmv hfx hb
                    Kind.tuple
            | err e => rw [hb] at hw; exact Res.noConfusion hw
            | panicked => rw [hb] at hw; exact Res.noConfusion hw
            | fuelOut => rw [hb] at hw; exact Res.noConfusion hw
    | list xs =>
        have hcx : xs.length < 2 ^ 31 ∧ canonList xs = true := by
          simpa [canonObj, Bool.and_eq_true, decide_eq_true_eq] using hc
        have hfx : vCost xs ≤ f := by simp only [rCost] at hfu; omega
        cases wf with
        | zero => exact absurd hw (by simp [wObject])
        | succ wf' =>
          rw [wObject] at hw
          split at hw
          · exact Res.noConfusion hw
          · cases hb : wObjList wrefs mv wf' (d + 1) xs with
            | ok body =>
                rw [hb] at hw
                simp only [Res.bind_ok] at hw
                cases hw
                rw [show wKind Kind.list false = [(91 : Nat)] from rfl]
                simp only [List.cons_append, List.nil_append, List.append_assoc]
                refine rStep_list f v _ _ refs refs (xs.length : Int) xs rest
                  (rLong_wLong _ (by omega) (by omega) _) ?_
                rw [usizeOfInt_natCast _ (by omega)]
                exact (IH (osizeList xs) (by simp only [osize] at hsz; omega)).2.1 xs
                  wrefs mv wf' (d + 1) body f v rest refs (Nat.le_refl _) hcx.2 hmv hfx hb
                  Kind.list
            | err e => rw [hb] at hw; exact Res.noConfusion hw
            | panicked => rw [hb] at hw; exact Res.noConfusion hw
            | fuelOut => rw [hb] at hw; exact Res.noConfusion hw
    | dict es =>
        have hfx : dCost es ≤ f := by simp only [rCost] at hfu; omega
        cases wf with
        | zero => exact absurd hw (by simp [wObject])
        | succ wf' =>
          rw [wObject] at hw
          split at hw
          · exact Res.noConfusion hw
          · cases hb : wDictEntries wrefs mv wf' (d + 1) es with
            | ok body =>
                rw [hb] at hw
                simp only [Res.bind_ok] at hw
                cases hw
                rw [show wKind Kind.dict false = [(123 : Nat)] from rfl,
                  show wKind Kind.nullKind false = [(48 : Nat)] from rfl]
                simp only [List.cons_append, List.nil_append, List.append_assoc]
                refine rStep_dict f v _ refs refs es rest ?_
                have hmain := (IH (dsize es) (by simp only [osize] at hsz; omega)).2.2.2
                  es [] wrefs mv wf' (d + 1) body f v rest refs (Nat.le_refl _)
                  (by simpa [canonObj] using hc) hmv hfx hb
                simpa using hmain
            | err e => rw [hb] at hw; exact Res.noConfusion hw
            | panicked => rw [hb] at hw; exact Res.noConfusion hw
            | fuelOut => rw [hb] at hw; exact Res.noConfusion hw
    | set xs =>
        have hcx : (xs.length < 2 ^ 31 ∧ canonHList xs = true) ∧ hdistinct [] xs = true := by
          simpa [canonObj, Bool.and_eq_true, decide_eq_true_eq] using hc
        have hfx : hvCost xs ≤ f ∧ cvCost xs ≤ f := by
          simp only [rCost] at hfu; omega
        cases wf with
        | zero => exact absurd hw (by simp [wObject])
        | succ wf' =>
          rw [wObject] at hw
          split at hw
          · exact Res.noConfusion hw
          · cases hb : wHObjList wrefs mv wf' (d + 1) xs with
            | ok body =>
                rw [hb] at hw
                simp only [Res.bind_ok] at hw
                cases hw
                rw [show wKind Kind.set false = [(60 : Nat)] from rfl]
                simp only [List.cons_append, List.nil_append, List.append_assoc]
                have h2 : rVec f v (usizeOfInt (xs.length : Int)) Kind.set
                    (body ++ rest) refs = .ok (HObj.toObjList xs, rest, refs) := by
                  rw [usizeOfInt_natCast _ (by omega)]
                  exact (IH (hsizeList xs) (by simp only [osize] at hsz; omega)).2.2.1 xs
                    wrefs mv wf' (d + 1) body f v rest refs (Nat.le_refl _) hcx.1.2 hmv
                    hfx.1 hb Kind.set
                have hstep := rStep_set f v _ _ refs refs (xs.length : Int)
                  (HObj.toObjList xs) xs rest
                  (rLong_wLong _ (by omega) (by omega) _) h2
                  (hconvert_toObjList xs f refs hcx.1.2 hfx.2)
                rw [hsetOfList_distinct xs hcx.2] at hstep
                exact hstep
            | err e => rw [hb] at hw; exact Res.noConfusion hw
            | panicked => rw [hb] at hw; exact Res.noConfusion hw
            | fuelOut => rw [hb] at hw; exact Res.noConfusion hw
    | frozenset xs =>
        have hcx : (xs.length < 2 ^ 31 ∧ canonHList xs = true) ∧ hdistinct [] xs = true := by
          simpa [canonObj, Bool.and_eq_true, decide_eq_true_eq] using hc
        have hfx : hvCost xs ≤ f ∧ cvCost xs ≤ f := by
          simp only [rCost] at hfu; omega
        cases wf with
        | zero => exact absurd hw (by simp [wObject])
        | succ wf' =>
          rw [wObject] at hw
          split at hw
          · exact Res.noConfusion hw
          · cases hb : wHObjList wrefs mv wf' (d + 1) xs with
            | ok body =>
                rw [hb] at hw
                simp only [Res.bind_ok] at hw
                cases hw
                rw [show wKind Kind.frozenset false = [(62 : Nat)] from rfl]
                simp only [List.cons_append, List.nil_append, List.append_assoc]
                have h2 : rVec f v (usizeOfInt (xs.length : Int)) Kind.frozenset
                    (body ++ rest) refs = .ok (HObj.toObjList xs, rest, refs) := by
                  rw [usizeOfInt_natCast _ (by omega)]
                  exact (IH (hsizeList xs) (by simp only [osize] at hsz; omega)).2.2.1 xs
                    wrefs mv wf' (d + 1) body f v rest refs (Nat.le_refl _) hcx.1.2 hmv
                    hfx.1 hb Kind.frozenset
                have hstep := rStep_frozenset f v _ _ refs refs (xs.length : Int)
                  (HObj.toObjList xs) xs rest
                  (rLong_wLong _ (by omega) (by omega) _) h2
                  (hconvert_toObjList xs f refs hcx.1.2 hfx.2)
                rw [hsetOfList_distinct xs hcx.2] at hstep
                exact hstep
            | err e => rw [hb] at hw; exact Res.noConfusion hw
            | panicked => rw [hb] at hw; exact Res.noConfusion hw
            | fuelOut => rw [hb] at hw; exact Res.noConfusion hw
    | stopIteration => simp [canonObj] at hc
    | code310 a b c dd e ff g h i j k l m n o p => simp [canonObj] at hc
    | code311 a b c dd e ff g h i j k l m n o p q => simp [canonObj] at hc
    | loadRef i => simp [canonObj] at hc
    | storeRef i => simp [canonObj] at hc
  · intro xs wrefs mv wf d bs fuel v rest refs hsz hc hmv hfu hw k
    obtain ⟨g, rfl⟩ : ∃ g, fuel = g + 1 := ⟨fuel - 1, by have := vCost_pos xs; omega⟩
    cases wf with
    | zero => exact absurd hw (by simp [wObjList])
    | succ wf' =>
      cases xs with
      | nil =>
          simp only [wObjList] at hw
          cases hw
          rfl
      | cons x tl =>
          simp only [canonList, Bool.and_eq_true] at hc
          simp only [vCost] at hfu
          rw [wObjList] at hw
          cases hbx : wObject wrefs mv wf' d (Option.some x) false with
          | ok xb =>
              rw [hbx] at hw
              simp only [Res.bind_ok] at hw
              cases hbr : wObjList wrefs mv wf' d tl with
              | ok rb =>
                  rw [hbr] at hw
                  simp only [Res.bind_ok] at hw
                  cases hw
                  simp only [List.length_cons, List.append_assoc]
                  exact rVec_step g v tl.length k _ _ rest refs refs refs x tl
                    ((IH (osize x) (by simp only [osizeList] at hsz; omega)).1 x wrefs mv
                      wf' d xb g v (rb ++ rest) refs (Nat.le_refl _) hc.1 hmv
                      (by omega) hbx)
                    ((IH (osizeList tl) (by simp only [osizeList] at hsz; omega)).2.1 tl
                      wrefs mv wf' d rb g v rest refs (Nat.le_refl _) hc.2 hmv
                      (by omega) hbr k)
              | err e => rw [hbr] at hw; exact Res.noConfusion hw
              | panicked => rw [hbr] at hw; exact Res.noConfusion hw
              | fuelOut => rw [hbr] at hw; exact Res.noConfusion hw
          | err e => rw [hbx] at hw; exact Res.noConfusion hw
          | panicked => rw [hbx] at hw; exact Res.noConfusion hw
          | fuelOut => rw [hbx] at hw; exact Res.noConfusion hw
  · intro hs wrefs mv wf d bs fuel v rest refs hsz hc hmv hfu hw k
    obtain ⟨g, rfl⟩ : ∃ g, fuel = g + 1 := ⟨fuel - 1, by have := hvCost_pos hs; omega⟩
    cases wf with
    | zero => exact absurd hw (by simp [wHObjList])
    | succ wf' =>
      cases hs with
      | nil =>
          simp only [wHObjList] at hw
          cases hw
          rfl
      | cons x tl =>
          simp only [canonHList, Bool.and_eq_true] at hc
          simp only [hvCost] at hfu
          rw [wHObjList] at hw
          cases hbx : wObject wrefs mv wf' d (Option.some x.toObj) false with
          | ok xb =>
              rw [hbx] at hw
              simp only [Res.bind_ok] at hw
              cases hbr : wHObjList wrefs mv wf' d tl with
              | ok rb =>
                  rw [hbr] at hw
                  simp only [Res.bind_ok] at hw
                  cases hw
                  simp only [List.length_cons, List.append_assoc, HObj.toObjList]
                  exact rVec_step g v tl.length k _ _ rest refs refs refs x.toObj
                    (HObj.toObjList tl)
                    ((IH (osize x.toObj)
                        (by rw [osize_toObj]; simp only [hsizeList] at hsz; omega)).1
                      x.toObj wrefs mv wf' d xb g v (rb ++ rest) refs (Nat.le_refl _)
                      (canonObj_toObj x hc.1) hmv (by rw [rCost_toObj]; omega) hbx)
                    ((IH (hsizeList tl) (by simp only [hsizeList] at hsz; omega)).2.2.1 tl
                      wrefs mv wf' d rb g v rest refs (Nat.le_refl _) hc.2 hmv
                      (by omega) hbr k)
              | err e => rw [hbr] at hw; exact Res.noConfusion hw
              | panicked => rw [hbr] at hw; exact Res.noConfusion hw
              | fuelOut => rw [hbr] at hw; exact Res.noConfusion hw
          | err e => rw [hbx] at hw; exact Res.noConfusion hw
          | panicked => rw [hbx] at hw; exact Res.noConfusion hw
          | fuelOut => rw [hbx] at hw; exact Res.noConfusion hw
  · intro es acc wrefs mv wf d bs fuel v rest refs hsz hc hmv hfu hw
    obtain ⟨g, rfl⟩ : ∃ g, fuel = g + 1 := ⟨fuel - 1, by have := dCost_pos es; omega⟩
    cases wf with
    | zero => exact absurd hw (by simp [wDictEntries])
    | succ wf' =>
      rcases es with _ | ⟨⟨kk, vv⟩, tl⟩
      · simp only [wDictEntries] at hw
        cases hw
        obtain ⟨g', rfl⟩ : ∃ g', g = g' + 1 := ⟨g - 1, by simp [dCost] at hfu; omega⟩
        simp only [List.nil_append, List.append_nil]
        exact rHashmap_stop (g' + 1) v (48 :: rest) rest refs refs acc
          (rStep_null g' v rest refs)
      · simp only [canonDict, Bool.and_eq_true] at hc
        simp only [dCost] at hfu
        rw [wDictEntries] at hw
        cases hbk : wObject wrefs mv wf' d (Option.some kk.toObj) false with
        | ok kb =>
            rw [hbk] at hw
            simp only [Res.bind_ok] at hw
            cases hbv : wObject wrefs mv wf' d (Option.some vv) false with
            | ok vb =>
                rw [hbv] at hw
                simp only [Res.bind_ok] at hw
                cases hbr : wDictEntries wrefs mv wf' d tl with
                | ok rb =>
                    rw [hbr] at hw
                    simp only [Res.bind_ok] at hw
                    cases hw
                    simp only [List.append_assoc]
                    have h4 : rHashmap g v (rb ++ 48 :: rest) refs (dictInsert acc kk vv)
                        = .ok (acc ++ (kk, vv) :: tl, rest, refs) := by
                      rw [dictInsert_fresh acc kk vv hc.1.1.1]
                      have hrec := (IH (dsize tl)
                          (by simp only [dsize] at hsz; omega)).2.2.2
                        tl (acc ++ [(kk, vv)]) wrefs mv wf' d rb g v
                        rest refs (Nat.le_refl _) hc.2 hmv (by omega) hbr
                      simpa [List.append_assoc] using hrec
                    exact rHashmap_step g v _ _ _ rest refs refs refs refs kk.toObj vv kk
                      acc (acc ++ (kk, vv) :: tl)
                      ((IH (osize kk.toObj)
                          (by rw [osize_toObj]; simp only [dsize] at hsz; omega)).1
                        kk.toObj wrefs mv wf' d kb g v (vb ++ (rb ++ 48 :: rest)) refs
                        (Nat.le_refl _)
                        (canonObj_toObj kk hc.1.1.2) hmv (by rw [rCost_toObj]; omega) hbk)
                      ((IH (osize vv) (by simp only [dsize] at hsz; omega)).1
                        vv wrefs mv wf' d vb g v (rb ++ 48 :: rest) refs (Nat.le_refl _)
                        hc.1.2 hmv (by omega) hbv)
                      (tryHashable_toObj kk hc.1.1.2) h4
                | err e2 => rw [hbr] at hw; exact Res.noConfusion hw
                | panicked => rw [hbr] at hw; exact Res.noConfusion hw
                | fuelOut => rw [hbr] at hw; exact Res.noConfusion hw
            | err e2 => rw [hbv] at hw; exact Res.noConfusion hw
            | panicked => rw [hbv] at hw; exact Res.noConfusion hw
            | fuelOut => rw [hbv] at hw; exact Res.noConfusion hw
        | err e2 => rw [hbk] at hw; exact Res.noConfusion hw
        | panicked => rw [hbk] at hw; exact Res.noConfusion hw
        | fuelOut => rw [hbk] at hw; exact Res.noConfusion hw


/-- C1 (counterexample): the round-trip identity fails as stated.  The input
`I\x01\x00\x00\x00\x00\x00\x00\x00` (the 64-bit-int tag for the value 1)
decodes successfully under version 3.10 with an empty reference table, but
re-encoding the decoded value reproduces the 32-bit-int form
`i\x01\x00\x00\x00` at every marshal revision (the writer picks the tag from
the value's range, and no revision knob selects the 64-bit form), so no
revision reproduces the original bytes. -/
theorem C1_int64_roundtrip_fails :
    loadBytes 20 [73, 1, 0, 0, 0, 0, 0, 0, 0] (PyVersion.new 3 10)
      = .ok (Obj.long 1, [])
    ∧ dumpBytes 20 (Obj.long 1) (Option.some []) (PyVersion.new 3 10) 0 = .ok [105, 1, 0, 0, 0]
    ∧ dumpBytes 20 (Obj.long 1) (Option.some []) (PyVersion.new 3 10) 1 = .ok [105, 1, 0, 0, 0]
    ∧ dumpBytes 20 (Obj.long 1) (Option.some []) (PyVersion.new 3 10) 2 = .ok [105, 1, 0, 0, 0]
    ∧ dumpBytes 20 (Obj.long 1) (Option.some []) (PyVersion.new 3 10) 4 = .ok [105, 1, 0, 0, 0]
    ∧ ([105, 1, 0, 0, 0] : List Nat) ≠ [73, 1, 0, 0, 0, 0, 0, 0, 0] :=
  ⟨rfl, rfl, rfl, rfl, rfl, by decide⟩

/-- C2: decoding a ref-flagged set does not succeed: the Reader does reserve
a slot before the payload (as it does for the other container kinds — shown
here for a flagged empty list, which decodes to a store placeholder with the
reserved slot filled), but the `Set` branch then re-points the slot index at
`references.len()` and writes through it, an out-of-bounds `Vec` write, so
every ref-flagged set (here the flagged empty set `0xBC` with count 0)
panics instead of decoding. -/
theorem C2_flagged_set_decode_panics :
    readObject 20 (PyVersion.new 3 10) [188, 0, 0, 0, 0] = Res.panicked
    ∧ readObject 20 (PyVersion.new 3 10) [219, 0, 0, 0, 0]
        = .ok (Obj.storeRef 0, [Obj.list []]) :=
  ⟨rfl, rfl⟩

/-- C3: the optimizer guarantee fails on a reader-producible graph: for the
root `(StoreRef 0, LoadRef 0)` with table `[[StoreRef 1, 2], 1]` (slot 1 is
stored inside slot 0's list but never loaded), `optimize_references` returns
the graph unchanged — the store placeholder for the used slot 0 is never
descended into, so the unused slot 1 survives in the output table even
though no load placeholder targets it (the code's own usage counter reports
only index 0 as loaded). -/
theorem C3_optimize_keeps_unloaded_entry :
    optimizeReferences 50 (Obj.tuple [Obj.storeRef 0, Obj.loadRef 0])
      [Obj.list [Obj.storeRef 1, Obj.long 2], Obj.long 1]
      = .ok (Obj.tuple [Obj.storeRef 0, Obj.loadRef 0],
          [Obj.list [Obj.storeRef 1, Obj.long 2], Obj.long 1])
    ∧ getUsedReferences 50 (Obj.tuple [Obj.storeRef 0, Obj.loadRef 0])
        [Obj.list [Obj.storeRef 1, Obj.long 2], Obj.long 1] = .ok [0] :=
  ⟨rfl, rfl⟩

/-- C4: resolve is not total on acyclic graphs.  The graph with root
`(StoreRef 0, LoadRef 0)` and table `[[StoreRef 1, LoadRef 1], 1]` (a shared
list that itself shares a leaf) contains no genuine cycle — the code's own
recursive-reference detector reports none — yet `resolve_all_refs` panics:
inlining `LoadRef 0` duplicates the `StoreRef 1` node held in the list, and
the final optimize pass unwraps a missing table entry for the duplicate. -/
theorem C4_resolve_acyclic_panics :
    getRecursiveRefs 50 (Obj.tuple [Obj.storeRef 0, Obj.loadRef 0])
      [Obj.list [Obj.storeRef 1, Obj.loadRef 1], Obj.long 1] = .ok []
    ∧ resolveAllRefs 50 (Obj.tuple [Obj.storeRef 0, Obj.loadRef 0])
        [Obj.list [Obj.storeRef 1, Obj.loadRef 1], Obj.long 1] = Res.panicked :=
  ⟨rfl, rfl⟩

/-- C5: resolve preserves the self-referential list: for the root
`LoadRef 0` over the one-entry table whose slot 0 is the list `[LoadRef 0]`,
`resolve_all_refs` returns the root still as `LoadRef 0` and the one-entry
table still holding the list that contains that same `LoadRef 0`. -/
theorem C5_resolve_preserves_self_cycle :
    resolveAllRefs 50 (Obj.loadRef 0) [Obj.list [Obj.loadRef 0]]
      = .ok (Obj.loadRef 0, [Obj.list [Obj.loadRef 0]]) := rfl

/-- C6: the ref flag is not a no-op on the skip kinds.  A flagged
`None`/`True`/`False`/`Ellipsis` tag, and a flagged back-reference (here the
element of a flagged list, so the table has a valid slot 0), each make
`r_object` return `Error::InvalidReference` — the final flag bookkeeping
finds no slot index for these kinds — instead of returning the value
decoded for the unflagged tag (shown for `None`); a flagged stop-marker tag
panics (`todo!`), as the unflagged one does. -/
theorem C6_flagged_skip_kinds_error :
    readObject 20 (PyVersion.new 3 10) [206] = .err .invalidReference
    ∧ readObject 20 (PyVersion.new 3 10) [78] = .ok (Obj.none, [])
    ∧ readObject 20 (PyVersion.new 3 10) [212] = .err .invalidReference
    ∧ readObject 20 (PyVersion.new 3 10) [198] = .err .invalidReference
    ∧ readObject 20 (PyVersion.new 3 10) [174] = .err .invalidReference
    ∧ readObject 30 (PyVersion.new 3 10) [219, 1, 0, 0, 0, 242, 0, 0, 0, 0]
        = .err .invalidReference
    ∧ readObject 20 (PyVersion.new 3 10) [211] = Res.panicked :=
  ⟨rfl, rfl, rfl, rfl, rfl, rfl, rfl⟩

/-- C7 (counterexample): the digit bound is checked with a strict `>`, so
the boundary digit `2^15 = 32768` (encoded `\x00\x80`), which the claim says
must raise a digit-out-of-range error, is accepted: the one-digit long
`l\x01\x00\x00\x00\x00\x80` decodes successfully to the integer 32768. -/
theorem C7_digit_boundary_accepted :
    readObject 20 (PyVersion.new 3 10) [108, 1, 0, 0, 0, 0, 128]
      = .ok (Obj.long 32768, []) := rfl

/-- C7 (amended): in the arbitrary-precision-integer digit loop, a digit
strictly above `2^15` (and representable in the two bytes read) causes a
digit-out-of-range decode error naming that digit, every digit `d ≤ 2^15`
(boundary included) is accepted — the loop assembles the OR of the digits
shifted by 15 bits each — and a zero digit count reads no digits and yields
the integer zero (shown for the whole `Long` decode of a zero count, whose
sign comes from the count's sign). -/
theorem C7_long_digit_decoding (ds : List Nat) (rest : List Nat) :
    ((∀ d ∈ ds, d ≤ 32768) →
      rLongDigits ds.length 0 0 (digitBytes ds ++ rest) = .ok (longDigitsVal ds, rest))
    ∧ (∀ pre d suf, ds = pre ++ d :: suf → (∀ p ∈ pre, p ≤ 32768) →
        32768 < d → d < 65536 →
        rLongDigits ds.length 0 0 (digitBytes ds ++ rest)
          = .err (.digitOutOfRange d))
    ∧ rLongDigits 0 0 0 rest = .ok (0, rest)
    ∧ readObject 20 (PyVersion.new 3 10) [108, 0, 0, 0, 0] = .ok (Obj.long 0, []) := by
  refine ⟨?_, ?_, rfl, rfl⟩
  · intro h
    have h0 := rLongDigits_ok ds h 0 0 rest
    have hOr : ∀ b : Nat, Nat.lor 0 b = b := fun b => Nat.zero_or b
    simpa [hOr] using h0
  · rintro pre d suf rfl hpre hlo hhi
    exact rLongDigits_err pre d suf hpre hlo hhi 0 0 rest

/-- Witness for C7: the boundary digit 32768 is accepted (one digit, value
32768), and the digit 40000 after an in-range digit raises
`DigitOutOfRange 40000`. -/
theorem C7_long_digit_decoding_witness :
    rLongDigits (List.length [32768]) 0 0 (digitBytes [32768] ++ [])
        = .ok (longDigitsVal [32768], [])
    ∧ rLongDigits (List.length [1, 40000]) 0 0 (digitBytes [1, 40000] ++ [])
        = .err (.digitOutOfRange 40000) := by
  constructor
  · exact (C7_long_digit_decoding [32768] []).1 (by decide)
  · exact (C7_long_digit_decoding [1, 40000] []).2.1 [1] 40000 [] rfl (by decide)
      (by decide) (by decide)

/-- C8: writing a load placeholder with no table entry is a `panic!`, not a
returned error (refuting the never-panics half of the claim), while a load
placeholder with a valid index does emit exactly the back-reference tag byte
`r` followed by the 4-byte little-endian index. -/
theorem C8_loadref_write_behavior :
    writeObject 20 [] 4 (Option.some (Obj.loadRef 0)) = Res.panicked
    ∧ writeObject 20 [Obj.none] 4 (Option.some (Obj.loadRef 0))
        = .ok [114, 0, 0, 0, 0] :=
  ⟨rfl, rfl⟩

/-- C9: the Reader's decode entry point panics on malformed input: the empty
byte sequence hits `read_object`'s `panic!("EOF, ...")`, and a code-unit tag
under the unsupported version 3.9 hits the `panic!("Unsupported version")`
arm instead of returning a structured error. -/
theorem C9_reader_panics :
    readObject 20 (PyVersion.new 3 10) [] = Res.panicked
    ∧ readObject 20 (PyVersion.new 3 9) [99] = Res.panicked :=
  ⟨rfl, rfl⟩

/-- C10: the container framing does not match the claim for pre-3.7
versions: for a version-3.4 stream, `load_pyc` reads the hash as 8 bytes at
offsets 4..12 (here `0x0807060504030201`, not the 4-byte `0x04030201`) and
decodes the root from offset 16 (here the `i\x01...` at bytes 16..20), not
offset 8; and `dump_pyc` writes magic + 8-byte hash + root, placing the
root at offset 12, so the written layout does not even agree with the one
read. -/
theorem C10_container_layout :
    loadPyc 50 ([238, 12, 13, 10] ++ [1, 2, 3, 4, 5, 6, 7, 8] ++ [9, 10, 11, 12]
        ++ [105, 1, 0, 0, 0])
      = .ok ⟨⟨3, 4, 0⟩, Option.none, 0x0807060504030201, Obj.long 1, []⟩
    ∧ dumpPyc 50 ⟨⟨3, 4, 0⟩, Option.none, 0x0807060504030201, Obj.long 1, []⟩
        = .ok ([238, 12, 13, 10] ++ [1, 2, 3, 4, 5, 6, 7, 8] ++ [105, 1, 0, 0, 0]) :=
  ⟨rfl, rfl⟩

/-- C1 (amended): the round-trip identity holds on the encoder's image.  For
every canonical value `o` — placeholder-free, no code units, a writable
recorded string kind, lengths and bytes within the fields they are written
to, distinct set elements and dict keys — and every marshal version of at
least 2, a successful encode `writeObject = ok bs` decodes back exactly:
`readObject bs = ok (o, [])` with an empty reference table, under any
reader version.  Consequently re-encoding the decoded pair reproduces `bs`
byte for byte.  The claim's original direction (decode-then-encode
reproduces every decodable byte sequence under a matching revision) is
refuted by the Int64 counterexample: the reader accepts the `I` tag but the
writer can never emit it. -/
theorem C1_roundtrip_on_encoder_image (o : Obj) (mv wf rfuel : Nat) (v : PyVersion)
    (bs : List Nat) (hc : canonObj o = true) (hmv : 2 ≤ mv) (hfu : rCost o ≤ rfuel)
    (henc : writeObject wf [] mv (Option.some o) = .ok bs) :
    readObject rfuel v bs = .ok (o, []) ∧
    writeObject wf [] mv (Option.some o) = .ok bs := by
  refine ⟨?_, henc⟩
  have henc' : wObject [] mv wf 1 (Option.some o) false = .ok bs := henc
  have hr := (parseMain (osize o)).1 o [] mv wf 1 bs rfuel v [] [] (Nat.le_refl _)
    hc hmv hfu henc'
  rw [List.append_nil] at hr
  obtain ⟨f, rfl⟩ : ∃ f, rfuel = f + 1 := ⟨rfuel - 1, by have := rCost_pos o; omega⟩
  cases bs with
  | nil =>
      rw [rObject] at hr
      simp only [rU8, Res.bind_err] at hr
      exact Res.noConfusion hr
  | cons b tl =>
      simp only [readObject]
      rw [hr]

/-- Concrete round trip on the encoder's image: a nested tuple holding a
small int, a multi-digit long, a short string, bytes, a binary float, a
two-entry dict, a set, a frozenset and a list encodes at marshal version 4
and decodes back to itself with an empty reference table. -/
theorem C1_roundtrip_on_encoder_image_witness :
    readObject 20 (PyVersion.new 3 12)
      [41, 9, 105, 3, 0, 0, 0, 108, 3, 0, 0, 0, 0, 16, 95, 32, 37, 0, 122, 2, 104, 105,
       115, 2, 0, 0, 0, 0, 255, 103, 0, 0, 0, 0, 0, 0, 0, 64, 123, 84, 78, 105, 7, 0, 0,
       0, 91, 1, 0, 0, 0, 46, 48, 60, 2, 0, 0, 0, 105, 1, 0, 0, 0, 105, 2, 0, 0, 0, 62,
       1, 0, 0, 0, 97, 1, 0, 0, 0, 97, 91, 2, 0, 0, 0, 46, 70]
      = .ok (Obj.tuple [Obj.long 3, Obj.long 40000000000,
          Obj.string ⟨[104, 105], Kind.shortAscii⟩,
          Obj.bytes [0, 255], Obj.float 4611686018427387904,
          Obj.dict [(HObj.bool true, Obj.none), (HObj.long 7, Obj.list [Obj.ellipsis])],
          Obj.set [HObj.long 1, HObj.long 2],
          Obj.frozenset [HObj.string ⟨[97], Kind.ascii⟩],
          Obj.list [Obj.ellipsis, Obj.bool false]], [])
    ∧ writeObject 40 [] 4 (Option.some (Obj.tuple [Obj.long 3, Obj.long 40000000000,
          Obj.string ⟨[104, 105], Kind.shortAscii⟩,
          Obj.bytes [0, 255], Obj.float 4611686018427387904,
          Obj.dict [(HObj.bool true, Obj.none), (HObj.long 7, Obj.list [Obj.ellipsis])],
          Obj.set [HObj.long 1, HObj.long 2],
          Obj.frozenset [HObj.string ⟨[97], Kind.ascii⟩],
          Obj.list [Obj.ellipsis, Obj.bool false]]))
      = .ok [41, 9, 105, 3, 0, 0, 0, 108, 3, 0, 0, 0, 0, 16, 95, 32, 37, 0, 122, 2, 104,
          105, 115, 2, 0, 0, 0, 0, 255, 103, 0, 0, 0, 0, 0, 0, 0, 64, 123, 84, 78, 105,
          7, 0, 0, 0, 91, 1, 0, 0, 0, 46, 48, 60, 2, 0, 0, 0, 105, 1, 0, 0, 0, 105, 2,
          0, 0, 0, 62, 1, 0, 0, 0, 97, 1, 0, 0, 0, 97, 91, 2, 0, 0, 0, 46, 70] :=
  C1_roundtrip_on_encoder_image
    (Obj.tuple [Obj.long 3, Obj.long 40000000000,
      Obj.string ⟨[104, 105], Kind.shortAscii⟩,
      Obj.bytes [0, 255], Obj.float 4611686018427387904,
      Obj.dict [(HObj.bool true, Obj.none), (HObj.long 7, Obj.list [Obj.ellipsis])],
      Obj.set [HObj.long 1, HObj.long 2],
      Obj.frozenset [HObj.string ⟨[97], Kind.ascii⟩],
      Obj.list [Obj.ellipsis, Obj.bool false]])
    4 40 20 (PyVersion.new 3 12)
    [41, 9, 105, 3, 0, 0, 0, 108, 3, 0, 0, 0, 0, 16, 95, 32, 37, 0, 122, 2, 104, 105,
     115, 2, 0, 0, 0, 0, 255, 103, 0, 0, 0, 0, 0, 0, 0, 64, 123, 84, 78, 105, 7, 0, 0,
     0, 91, 1, 0, 0, 0, 46, 48, 60, 2, 0, 0, 0, 105, 1, 0, 0, 0, 105, 2, 0, 0, 0, 62,
     1, 0, 0, 0, 97, 1, 0, 0, 0, 97, 91, 2, 0, 0, 0, 46, 70]
    rfl (by decide) (by decide) rfl

end PyMarshal
